import Mathlib

/-!
Shallow embedding of the path classifier in bids/layout/bids_validator.py.

The Python class BIDSValidator holds one configuration flag
(index_associated) and a fixed list of anatomical suffixes assigned by
__init__.  Each category method compiles an anchored regular expression
and tests the path against it; the subject-scoped rules additionally run
conditional_match over the captured groups.  Every pattern in the source
is anchored as ^...$ and contains no nested quantified groups, so each one
is embedded below as a first-order parser over the character list of the
path:

- character classes [a-zA-Z0-9] and [0-9] become isAlnum and Char.isDigit
  (both ASCII, as in Python);
- a regex dot is a wildcard matching any character except a newline;
- the dollar anchor accepts the end of the string or a position just
  before a single final newline, as in Python without MULTILINE;
- a quantified character class is matched greedily; in every embedded
  pattern the character that follows such a class lies outside the class,
  so the greedy match is the only viable one;
- an optional group is entered exactly when its leading literal matches;
  in every embedded pattern no later element can consume an input that
  starts with that literal, so entering is forced;
- alternations whose branches end at the dollar anchor are tried
  branch-by-branch, which reproduces the backtracking search;
- the backreference (_\2) matches an underscore followed by the exact
  text of the session directory capture, and fails when that group did
  not take part in the match.
-/

/-- Characters of a path: the model of a Python string. -/
abbrev Cs := List Char

/-- The character list of a string literal. -/
def tl (s : String) : Cs := s.toList

/-- The Python character class [a-zA-Z0-9] (ASCII letters and digits). -/
def isAlnum (c : Char) : Bool := c.isAlpha || c.isDigit

/-- Match a literal run of characters, returning the rest of the input. -/
def lit : Cs → Cs → Option Cs
  | [], s => some s
  | _ :: _, [] => none
  | c :: cs, d :: ds => if d = c then lit cs ds else none

/-- Greedy run of characters satisfying q (possibly empty). -/
def manyP (q : Char → Bool) : Cs → Cs × Cs
  | [] => ([], [])
  | c :: cs =>
    if q c then
      let p := manyP q cs
      (c :: p.1, p.2)
    else ([], c :: cs)

/-- The + quantifier on a character class: one or more, greedy. -/
def many1 (q : Char → Bool) (s : Cs) : Option (Cs × Cs) :=
  match manyP q s with
  | ([], _) => none
  | (t, r) => some (t, r)

/-- The dollar anchor: end of string, or just before one final newline. -/
def atEnd (s : Cs) : Bool := s == [] || s == ['\n']

/-- A pattern fragment: literal characters and single-character wildcards
(a regex dot, matching any character other than a newline). -/
abbrev Pat := List (Option Char)

/-- The fragment of a source pattern, each dot becoming the wildcard. -/
def pw (s : String) : Pat := s.toList.map fun c => if c = '.' then none else some c

/-- Match a literal-with-wildcards fragment. -/
def litW : Pat → Cs → Option Cs
  | [], s => some s
  | _ :: _, [] => none
  | some c :: ps, d :: ds => if d = c then litW ps ds else none
  | none :: ps, d :: ds => if d = '\n' then none else litW ps ds

/-- An alternation of literal-with-wildcard fragments closed by the dollar
anchor, tried branch by branch. -/
def altsEnd (alts : List String) (s : Cs) : Bool :=
  alts.any fun a =>
    match litW (pw a) s with
    | some r => atEnd r
    | none => false

/-- An optional group of the form (?:TAG BODY+)?.  It is entered exactly
when TAG matches; a failure of the body after the tag fails the whole
match, since no later pattern element can consume an input starting with
the tag. -/
def optTag (tag : Cs) (q : Char → Bool) (s : Cs) : Option Cs :=
  match lit tag s with
  | none => some s
  | some r =>
    match many1 q r with
    | none => none
    | some (_, r2) => some r2

/-- An optional group of the form (?:TAG BODY+ CLOSE)?. -/
def optClose (tag : Cs) (q : Char → Bool) (close : Cs) (s : Cs) : Option Cs :=
  match lit tag s with
  | none => some s
  | some r =>
    match many1 q r with
    | none => none
    | some (_, r2) => lit close r2

/-- Every way for a quantified class to consume a nonempty prefix of its
greedy run, continuing with k on what is left. -/
def anySplit (run rest : Cs) (k : Cs → Bool) : Bool :=
  match run with
  | [] => false
  | _ :: cs => k (cs ++ rest) || anySplit cs rest k

/-- An optional group (?:TAG BODY+)? whose follower can begin with a
character of the class, so that the greedy body may have to give
characters back: every nonempty split of the run is tried, in
continuation-passing style. -/
def optTagBt (tag : Cs) (q : Char → Bool) (s : Cs) (k : Cs → Bool) : Bool :=
  match lit tag s with
  | none => k s
  | some r =>
    let p := manyP q r
    anySplit p.1 p.2 k

/-- The optional lone underscore (?:_)?. -/
def optU : Cs → Cs
  | '_' :: r => r
  | s => s

/-- The conditional backreference (_\2)?.  With a session directory
captured it matches an underscore followed by that exact capture; with no
capture it never matches (a backreference to a group that took no part in
the match fails).  Returns the captured text of the group (empty when the
group is skipped) and the rest of the input. -/
def optBackref (g2 : Option Cs) (s : Cs) : Cs × Cs :=
  match g2 with
  | none => ([], s)
  | some v =>
    match lit ('_' :: v) s with
    | some r => ('_' :: v, r)
    | none => ([], s)

/-- The fragment \/(sub-[a-zA-Z0-9]+)\/ with its capture, marker included. -/
def parseSubjectDir (s : Cs) : Option (Cs × Cs) :=
  match lit (tl "/sub-") s with
  | none => none
  | some r =>
    match many1 isAlnum r with
    | none => none
    | some (lab, r2) =>
      match lit (tl "/") r2 with
      | none => none
      | some r3 => some (tl "sub-" ++ lab, r3)

/-- The fragment (?:(ses-[a-zA-Z0-9]+)\/)? with its capture. -/
def parseOptSesDir (s : Cs) : Option (Option Cs × Cs) :=
  match lit (tl "ses-") s with
  | none => some (none, s)
  | some r =>
    match many1 isAlnum r with
    | none => none
    | some (lab, r2) =>
      match lit (tl "/") r2 with
      | none => none
      | some r3 => some (some (tl "ses-" ++ lab), r3)

/-- First literal alternative that matches (a modality directory
alternation; the branches never share a viable input). -/
def firstLit : List Cs → Cs → Option Cs
  | [], _ => none
  | m :: ms, s =>
    match lit m s with
    | some r => some r
    | none => firstLit ms s

/-- The common prefix \/(sub-..+)\/(?:(ses-..+)\/)? MOD \1 of every
subject-scoped rule; MOD is an alternation of literal directory names
(the one-element list [[]] when the rule has no modality directory).
Returns the subject capture, the optional session capture and the rest. -/
def subSesMod (mods : List Cs) (s : Cs) : Option (Cs × Option Cs × Cs) :=
  match parseSubjectDir s with
  | none => none
  | some (g1, s) =>
    match parseOptSesDir s with
    | none => none
    | some (g2, s) =>
      match firstLit mods s with
      | none => none
      | some s =>
        match lit g1 s with
        | none => none
        | some s => some (g1, g2, s)

/-- A suffix alternation followed by a wildcard dot and an extension
alternation closed by the dollar anchor, as in _(?:T1w|...).(nii.gz|...)$;
mark is the literal before the suffix (an underscore, or nothing). -/
def sufDotExtTail (mark : Cs) (sufs exts : List String) (s : Cs) : Bool :=
  sufs.any fun suf =>
    match lit (mark ++ tl suf) s with
    | some (c :: r) => !(c == '\n') && altsEnd exts r
    | _ => false

/-- The tail (?:.*)$ of the associated-data pattern: the greedy dot-star
never crosses a newline, so the remainder may hold no newline except
possibly a single final one. -/
def dotStarEnd : Cs → Bool
  | [] => true
  | ['\n'] => true
  | c :: cs => !(c == '\n') && dotStarEnd cs

/-- The tail (?:.*.tsv|.*.json)$ of the phenotypic pattern: at least one
non-newline character (the trailing wildcard dot), then the literal
extension, then the dollar anchor. -/
def dotPlusLit (alts : List String) : Cs → Bool
  | [] => false
  | c :: cs =>
    !(c == '\n') &&
      (alts.any (fun a => cs == tl a || cs == tl a ++ ['\n']) || dotPlusLit alts cs)

/-- A task token somewhere in a filename: the literal task- followed by at
least one [a-zA-Z0-9] character.  This is statement vocabulary for the
claims about task-tagged rules, not part of the embedded code. -/
def hasTaskTok : Cs → Bool
  | [] => false
  | c :: cs =>
    (match lit (tl "task-") (c :: cs) with
     | some (d :: _) => isAlnum d
     | _ => false) || hasTaskTok cs

/-- The validator object: the configuration flag and the anatomical
suffix list assigned by __init__. -/
structure BIDSValidator where
  anat_suffixes : List String
  index_associated : Bool

/-- __init__(self, index_associated=True). -/
def BIDSValidator.init (index_associated : Bool) : BIDSValidator :=
  { anat_suffixes := ["T1w", "T2w", "T1map", "T2map",
                      "T1rho", "FLAIR", "PD", "PDT2",
                      "inplaneT1", "inplaneT2", "angio",
                      "defacemask", "SWImagandphase"],
    index_associated := index_associated }

/-- conditional_match, applied to the findall result.  The source takes
the first findall tuple (groups in pattern order, an empty string for a
group that took no part) and returns True exactly when
match[1] == match[2][1:] or not match[1]; index 1 is the session
directory capture and index 2 the filename backreference capture.  Here
the optional tuple of groups is the result of the embedded pattern; the
trailing extension capture of some patterns is not recorded since no
index beyond 2 is ever read. -/
def BIDSValidator.conditional_match (m : Option (List Cs)) : Bool :=
  match m with
  | some grps =>
    if ((grps.getD 1 []) == (grps.getD 2 []).drop 1) || ((grps.getD 1 []) == []) then
      true
    else false
  | none => false

/-- scans_re of is_session_level:
^\/(sub-[a-zA-Z0-9]+)\/(?:(ses-[a-zA-Z0-9]+)\/)?\1(_\2)?(_scans.tsv|_scans.json)$ -/
def scansRe (s : Cs) : Option (List Cs) := do
  let (g1, g2, s) ← subSesMod [[]] s
  let (g3, s) := optBackref g2 s
  if altsEnd ["_scans.tsv", "_scans.json"] s then pure [g1, g2.getD [], g3] else none

/-- func_ses_re of is_session_level (note: no underscore before task-):
^\/(sub-..+)\/(?:(ses-..+)\/)?\1(_\2)?task-[a-zA-Z0-9]+(?:_acq-..+)?(?:_rec-..+)?
(?:_run-[0-9]+)?(?:_echo-[0-9]+)?(_bold.json|_sbref.json|_events.json|_events.tsv|
_physio.json|_stim.json)$ -/
def funcSesRe (s : Cs) : Option (List Cs) := do
  let (g1, g2, s) ← subSesMod [[]] s
  let (g3, s) := optBackref g2 s
  let s ← lit (tl "task-") s
  let (_, s) ← many1 isAlnum s
  let s ← optTag (tl "_acq-") isAlnum s
  let s ← optTag (tl "_rec-") isAlnum s
  let s ← optTag (tl "_run-") Char.isDigit s
  let s ← optTag (tl "_echo-") Char.isDigit s
  if altsEnd ["_bold.json", "_sbref.json", "_events.json", "_events.tsv",
              "_physio.json", "_stim.json"] s then
    pure [g1, g2.getD [], g3]
  else none

/-- anat_ses_re of is_session_level (note: no underscore before the
suffix, and the run group carries its own trailing underscore):
^\/(sub-..+)\/(?:(ses-..+)\/)?\1(_\2)?(?:_acq-..+)?(?:_rec-..+)?(?:_run-[0-9]+_)?
(SUFFIXES).json$ -/
def anatSesRe (sufs : List String) (s : Cs) : Option (List Cs) := do
  let (g1, g2, s) ← subSesMod [[]] s
  let (g3, s) := optBackref g2 s
  if optTagBt (tl "_acq-") isAlnum s (fun s =>
       optTagBt (tl "_rec-") isAlnum s (fun s =>
         match optClose (tl "_run-") Char.isDigit (tl "_") s with
         | none => false
         | some s => sufDotExtTail [] sufs ["json"] s)) then
    pure [g1, g2.getD [], g3]
  else none

/-- dwi_ses_re of is_session_level:
^\/(sub-..+)\/(?:(ses-..+)\/)?\1(_\2)?(?:_acq-..+)?(?:_rec-..+)?(?:_run-[0-9]+)?
(?:_)?dwi.(?:json|bval|bvec)$ -/
def dwiSesRe (s : Cs) : Option (List Cs) := do
  let (g1, g2, s) ← subSesMod [[]] s
  let (g3, s) := optBackref g2 s
  if optTagBt (tl "_acq-") isAlnum s (fun s =>
       optTagBt (tl "_rec-") isAlnum s (fun s =>
         match optTag (tl "_run-") Char.isDigit s with
         | none => false
         | some s => sufDotExtTail [] ["dwi"] ["json", "bval", "bvec"] (optU s))) then
    pure [g1, g2.getD [], g3]
  else none

/-- anat_re of is_anat:
^\/(sub-..+)\/(?:(ses-..+)\/)?anat\/\1(_\2)?(?:_acq-..+)?(?:_rec-..+)?
(?:_run-[0-9]+)?_(?:SUFFIXES).(nii.gz|nii|json)$ -/
def anatRe (sufs : List String) (s : Cs) : Option (List Cs) := do
  let (g1, g2, s) ← subSesMod [tl "anat/"] s
  let (g3, s) := optBackref g2 s
  let s ← optTag (tl "_acq-") isAlnum s
  let s ← optTag (tl "_rec-") isAlnum s
  let s ← optTag (tl "_run-") Char.isDigit s
  if sufDotExtTail (tl "_") sufs ["nii.gz", "nii", "json"] s then
    pure [g1, g2.getD [], g3]
  else none

/-- The pattern of is_dwi:
^\/(sub-..+)\/(?:(ses-..+)\/)?dwi\/\1(_\2)?(?:_acq-..+)?(?:_rec-..+)?
(?:_run-[0-9]+)?_(?:dwi|sbref).(nii.gz|nii|json|bvec|bval)$ -/
def dwiRe (s : Cs) : Option (List Cs) := do
  let (g1, g2, s) ← subSesMod [tl "dwi/"] s
  let (g3, s) := optBackref g2 s
  let s ← optTag (tl "_acq-") isAlnum s
  let s ← optTag (tl "_rec-") isAlnum s
  let s ← optTag (tl "_run-") Char.isDigit s
  if sufDotExtTail (tl "_") ["dwi", "sbref"] ["nii.gz", "nii", "json", "bvec", "bval"] s then
    pure [g1, g2.getD [], g3]
  else none

/-- The pattern of is_field_map:
^\/(sub-..+)\/(?:(ses-..+)\/)?fmap\/\1(_\2)?(?:_acq-..+)?(?:_rec-..+)?
(?:_dir-..+)?(?:_run-[0-9]+)?_(?:phasediff|phase1|phase2|magnitude1|magnitude2|
magnitude|fieldmap|epi).(nii.gz|nii|json)$ -/
def fieldMapRe (s : Cs) : Option (List Cs) := do
  let (g1, g2, s) ← subSesMod [tl "fmap/"] s
  let (g3, s) := optBackref g2 s
  let s ← optTag (tl "_acq-") isAlnum s
  let s ← optTag (tl "_rec-") isAlnum s
  let s ← optTag (tl "_dir-") isAlnum s
  let s ← optTag (tl "_run-") Char.isDigit s
  if sufDotExtTail (tl "_") ["phasediff", "phase1", "phase2", "magnitude1",
                             "magnitude2", "magnitude", "fieldmap", "epi"]
       ["nii.gz", "nii", "json"] s then
    pure [g1, g2.getD [], g3]
  else none

/-- func_re of is_func:
^\/(sub-..+)\/(?:(ses-..+)\/)?func\/\1(_\2)?_task-[a-zA-Z0-9]+(?:_acq-..+)?
(?:_rec-..+)?(?:_run-[0-9]+)?(?:_echo-[0-9]+)?(?:_bold.nii.gz|_bold.nii|_bold.json|
_sbref.nii.gz|_sbref.json|_events.json|_events.tsv|_physio.tsv.gz|_stim.tsv.gz|
_physio.json|_stim.json|_defacemask.nii.gz|_defacemask.nii)$ -/
def funcRe (s : Cs) : Option (List Cs) := do
  let (g1, g2, s) ← subSesMod [tl "func/"] s
  let (g3, s) := optBackref g2 s
  let s ← lit (tl "_task-") s
  let (_, s) ← many1 isAlnum s
  let s ← optTag (tl "_acq-") isAlnum s
  let s ← optTag (tl "_rec-") isAlnum s
  let s ← optTag (tl "_run-") Char.isDigit s
  let s ← optTag (tl "_echo-") Char.isDigit s
  if altsEnd ["_bold.nii.gz", "_bold.nii", "_bold.json", "_sbref.nii.gz",
              "_sbref.json", "_events.json", "_events.tsv", "_physio.tsv.gz",
              "_stim.tsv.gz", "_physio.json", "_stim.json",
              "_defacemask.nii.gz", "_defacemask.nii"] s then
    pure [g1, g2.getD [], g3]
  else none

/-- func_beh of is_behavioral:
^\/(sub-..+)\/(?:(ses-..+)\/)?beh\/\1(_\2)?_task-[a-zA-Z0-9]+(?:_acq-..+)?
(?:_rec-..+)?(?:_run-[0-9]+)?(?:_beh.json|_events.json|_events.tsv|_physio.tsv.gz|
_stim.tsv.gz|_physio.json|_stim.json)$ -/
def behRe (s : Cs) : Option (List Cs) := do
  let (g1, g2, s) ← subSesMod [tl "beh/"] s
  let (g3, s) := optBackref g2 s
  let s ← lit (tl "_task-") s
  let (_, s) ← many1 isAlnum s
  let s ← optTag (tl "_acq-") isAlnum s
  let s ← optTag (tl "_rec-") isAlnum s
  let s ← optTag (tl "_run-") Char.isDigit s
  if altsEnd ["_beh.json", "_events.json", "_events.tsv", "_physio.tsv.gz",
              "_stim.tsv.gz", "_physio.json", "_stim.json"] s then
    pure [g1, g2.getD [], g3]
  else none

/-- func_re of is_func_bold:
^\/(sub-..+)\/(?:(ses-..+)\/)?func\/\1(_\2)?_task-[a-zA-Z0-9]+(?:_acq-..+)?
(?:_rec-..+)?(?:_run-[0-9]+)?(?:_echo-[0-9]+)?(?:_bold.nii.gz|_bold.nii|
_sbref.nii.gz|_sbref.nii)$ -/
def funcBoldRe (s : Cs) : Option (List Cs) := do
  let (g1, g2, s) ← subSesMod [tl "func/"] s
  let (g3, s) := optBackref g2 s
  let s ← lit (tl "_task-") s
  let (_, s) ← many1 isAlnum s
  let s ← optTag (tl "_acq-") isAlnum s
  let s ← optTag (tl "_rec-") isAlnum s
  let s ← optTag (tl "_run-") Char.isDigit s
  let s ← optTag (tl "_echo-") Char.isDigit s
  if altsEnd ["_bold.nii.gz", "_bold.nii", "_sbref.nii.gz", "_sbref.nii"] s then
    pure [g1, g2.getD [], g3]
  else none

/-- cont_re of is_cont:
^\/(sub-..+)\/(?:(ses-..+)\/)?(?:func|beh)\/\1(_\2)?_task-[a-zA-Z0-9]+
(?:_acq-..+)?(?:_rec-..+)?(?:_run-[0-9]+)?(?:_recording-..+)?
(?:_physio.tsv.gz|_stim.tsv.gz|_physio.json|_stim.json)$ -/
def contRe (s : Cs) : Option (List Cs) := do
  let (g1, g2, s) ← subSesMod [tl "func/", tl "beh/"] s
  let (g3, s) := optBackref g2 s
  let s ← lit (tl "_task-") s
  let (_, s) ← many1 isAlnum s
  let s ← optTag (tl "_acq-") isAlnum s
  let s ← optTag (tl "_rec-") isAlnum s
  let s ← optTag (tl "_run-") Char.isDigit s
  let s ← optTag (tl "_recording-") isAlnum s
  if altsEnd ["_physio.tsv.gz", "_stim.tsv.gz", "_physio.json", "_stim.json"] s then
    pure [g1, g2.getD [], g3]
  else none

/-- scans_re of is_subject_level:
^\/(sub-[a-zA-Z0-9]+)\/\1(_sessions.tsv|_sessions.json)$ -/
def subjectLevelRe (s : Cs) : Bool :=
  match parseSubjectDir s with
  | none => false
  | some (g1, s) =>
    match lit g1 s with
    | none => false
    | some s => altsEnd ["_sessions.tsv", "_sessions.json"] s

/-- The fixed top-level names of is_top_level. -/
def fixed_top_level_names : List Cs :=
  [tl "/README", tl "/CHANGES", tl "/dataset_description.json",
   tl "/participants.tsv", tl "/participants.json", tl "/phasediff.json",
   tl "/phase1.json", tl "/phase2.json", tl "/fieldmap.json"]

/-- func_top_re of is_top_level:
^\/(?:ses-..+_)?(?:recording-..+_)?task-[a-zA-Z0-9]+(?:_acq-..+)?(?:_rec-..+)?
(?:_run-[0-9]+)?(?:_echo-[0-9]+)?(_bold.json|_sbref.json|_events.json|_events.tsv|
_physio.json|_stim.json|_beh.json)$ -/
def funcTopRe (s : Cs) : Bool :=
  match (do
    let s ← lit (tl "/") s
    let s ← optClose (tl "ses-") isAlnum (tl "_") s
    let s ← optClose (tl "recording-") isAlnum (tl "_") s
    let s ← lit (tl "task-") s
    let (_, s) ← many1 isAlnum s
    let s ← optTag (tl "_acq-") isAlnum s
    let s ← optTag (tl "_rec-") isAlnum s
    let s ← optTag (tl "_run-") Char.isDigit s
    let s ← optTag (tl "_echo-") Char.isDigit s
    pure s : Option Cs) with
  | some s =>
    altsEnd ["_bold.json", "_sbref.json", "_events.json", "_events.tsv",
             "_physio.json", "_stim.json", "_beh.json"] s
  | none => false

/-- anat_top_re of is_top_level (the acq and rec groups start with their
own underscore after an optional ses-..._ group, as in the source):
^\/(?:ses-..+_)?(?:_acq-..+)?(?:_rec-..+)?(?:_run-[0-9]+_)?(SUFFIXES).json$ -/
def anatTopRe (sufs : List String) (s : Cs) : Bool :=
  match (do
    let s ← lit (tl "/") s
    let s ← optClose (tl "ses-") isAlnum (tl "_") s
    pure s : Option Cs) with
  | some s =>
    optTagBt (tl "_acq-") isAlnum s (fun s =>
      optTagBt (tl "_rec-") isAlnum s (fun s =>
        match optClose (tl "_run-") Char.isDigit (tl "_") s with
        | none => false
        | some s => sufDotExtTail [] sufs ["json"] s))
  | none => false

/-- dwi_top_re of is_top_level:
^\/(?:ses-..+)?(?:_acq-..+)?(?:_rec-..+)?(?:_run-[0-9]+)?(?:_)?dwi.(?:json|bval|bvec)$ -/
def dwiTopRe (s : Cs) : Bool :=
  match lit (tl "/") s with
  | none => false
  | some s =>
    optTagBt (tl "ses-") isAlnum s (fun s =>
      optTagBt (tl "_acq-") isAlnum s (fun s =>
        optTagBt (tl "_rec-") isAlnum s (fun s =>
          match optTag (tl "_run-") Char.isDigit s with
          | none => false
          | some s => sufDotExtTail [] ["dwi"] ["json", "bval", "bvec"] (optU s))))

/-- multi_dir_fieldmap_re of is_top_level: ^\/(?:dir-[a-zA-Z0-9]+)_epi.json$ -/
def multiDirFieldmapRe (s : Cs) : Bool :=
  match (do
    let s ← lit (tl "/") s
    let s ← lit (tl "dir-") s
    let (_, s) ← many1 isAlnum s
    pure s : Option Cs) with
  | some s => altsEnd ["_epi.json"] s
  | none => false

/-- other_top_files_re of is_top_level:
^\/(?:ses-..+_)?(?:recording-..+)?(?:task-..+_)?(?:_acq-..+)?(?:_rec-..+)?
(?:_run-[0-9]+)?(_physio.json|_stim.json)$ -/
def otherTopRe (s : Cs) : Bool :=
  match (do
    let s ← lit (tl "/") s
    let s ← optClose (tl "ses-") isAlnum (tl "_") s
    pure s : Option Cs) with
  | some s =>
    optTagBt (tl "recording-") isAlnum s (fun s =>
      match (do
        let s ← optClose (tl "task-") isAlnum (tl "_") s
        let s ← optTag (tl "_acq-") isAlnum s
        let s ← optTag (tl "_rec-") isAlnum s
        let s ← optTag (tl "_run-") Char.isDigit s
        pure s : Option Cs) with
      | some s => altsEnd ["_physio.json", "_stim.json"] s
      | none => false)
  | none => false

/-- is_top_level. -/
def BIDSValidator.is_top_level (v : BIDSValidator) (path : String) : Bool :=
  let s := tl path
  fixed_top_level_names.contains s || funcTopRe s || anatTopRe v.anat_suffixes s ||
    dwiTopRe s || multiDirFieldmapRe s || otherTopRe s

/-- is_associated_data: when the flag is unset the rule rejects; otherwise
^\/(?:code|derivatives|sourcedata|stimuli)\/(?:.*)$ must match (here the
surrounding slashes are folded into the literal alternatives). -/
def BIDSValidator.is_associated_data (v : BIDSValidator) (path : String) : Bool :=
  if !v.index_associated then false
  else
    match firstLit [tl "/code/", tl "/derivatives/", tl "/sourcedata/", tl "/stimuli/"]
        (tl path) with
    | some r => dotStarEnd r
    | none => false

/-- is_phenotypic: ^\/(?:phenotype)\/(?:.*.tsv|.*.json)$ -/
def BIDSValidator.is_phenotypic (_v : BIDSValidator) (path : String) : Bool :=
  match lit (tl "/phenotype/") (tl path) with
  | some r => dotPlusLit ["tsv", "json"] r
  | none => false

/-- is_session_level. -/
def BIDSValidator.is_session_level (v : BIDSValidator) (path : String) : Bool :=
  BIDSValidator.conditional_match (scansRe (tl path)) ||
  BIDSValidator.conditional_match (funcSesRe (tl path)) ||
  BIDSValidator.conditional_match (anatSesRe v.anat_suffixes (tl path)) ||
  BIDSValidator.conditional_match (dwiSesRe (tl path))

/-- is_subject_level. -/
def BIDSValidator.is_subject_level (_v : BIDSValidator) (path : String) : Bool :=
  subjectLevelRe (tl path)

/-- is_anat. -/
def BIDSValidator.is_anat (v : BIDSValidator) (path : String) : Bool :=
  BIDSValidator.conditional_match (anatRe v.anat_suffixes (tl path))

/-- is_dwi. -/
def BIDSValidator.is_dwi (_v : BIDSValidator) (path : String) : Bool :=
  BIDSValidator.conditional_match (dwiRe (tl path))

/-- is_field_map. -/
def BIDSValidator.is_field_map (_v : BIDSValidator) (path : String) : Bool :=
  BIDSValidator.conditional_match (fieldMapRe (tl path))

/-- is_func. -/
def BIDSValidator.is_func (_v : BIDSValidator) (path : String) : Bool :=
  BIDSValidator.conditional_match (funcRe (tl path))

/-- is_behavioral. -/
def BIDSValidator.is_behavioral (_v : BIDSValidator) (path : String) : Bool :=
  BIDSValidator.conditional_match (behRe (tl path))

/-- is_func_bold (defined in the source, not consulted by is_bids). -/
def BIDSValidator.is_func_bold (_v : BIDSValidator) (path : String) : Bool :=
  BIDSValidator.conditional_match (funcBoldRe (tl path))

/-- is_cont. -/
def BIDSValidator.is_cont (_v : BIDSValidator) (path : String) : Bool :=
  BIDSValidator.conditional_match (contRe (tl path))

/-- is_bids: the disjunction of the eleven category rules, in source
order. -/
def BIDSValidator.is_bids (v : BIDSValidator) (path : String) : Bool :=
  v.is_top_level path ||
  v.is_associated_data path ||
  v.is_session_level path ||
  v.is_subject_level path ||
  v.is_anat path ||
  v.is_dwi path ||
  v.is_func path ||
  v.is_behavioral path ||
  v.is_cont path ||
  v.is_field_map path ||
  v.is_phenotypic path

/-- The eleven category rules consulted by is_bids, in source order. -/
def BIDSValidator.ruleList (v : BIDSValidator) : List (String → Bool) :=
  [v.is_top_level, v.is_associated_data, v.is_session_level, v.is_subject_level,
   v.is_anat, v.is_dwi, v.is_func, v.is_behavioral, v.is_cont, v.is_field_map,
   v.is_phenotypic]

/-- The parenthesis-tracking part of re.compile: a backslash escapes the
next character, a bracket opens a character class inside which parentheses
are literal; a closing parenthesis with no group open, an unclosed group,
an unterminated class or a trailing backslash are compile errors. -/
def reOk : Bool → Nat → Cs → Bool
  | _, _, ['\\'] => false
  | inClass, d, '\\' :: _ :: rest => reOk inClass d rest
  | true, d, ']' :: rest => reOk false d rest
  | true, _, [] => false
  | true, d, _ :: rest => reOk true d rest
  | false, d, '[' :: rest => reOk true d rest
  | false, d, '(' :: rest => reOk false (d + 1) rest
  | false, 0, ')' :: _ => false
  | false, d + 1, ')' :: rest => reOk false d rest
  | false, d, [] => d == 0
  | false, d, _ :: rest => reOk false d rest

/-- re.compile, reduced to the aspect that decides get_path_values: an
unbalanced pattern raises re.error before any matching happens. -/
def reCompile (pat : String) : Except String String :=
  if reOk false 0 (tl pat) then Except.ok pat
  else Except.error "unbalanced parenthesis"

/-- The result record of get_path_values. -/
structure PathValues where
  sub : Option String
  ses : Option String

/-- get_path_values.  The source first runs
re.compile of the literal pattern /^\/sub-([a-zA-Z0-9]+)/) — whose final
parenthesis closes no group — so every call raises re.error at that
compile.  (Were the pattern repaired, the next line still evaluates
match & match[1], a bitwise and of a list and a string, raising
TypeError; that branch is unreachable.) -/
def BIDSValidator.get_path_values (_v : BIDSValidator) (_path : String) :
    Except String PathValues :=
  match reCompile "/^\\/sub-([a-zA-Z0-9]+)/)" with
  | Except.error e => Except.error e
  | Except.ok _ =>
    Except.error "TypeError: unsupported operand types for bitwise and"

/-! ### Basic facts about the matching combinators -/

theorem lit_eq_some {p s r : Cs} (h : lit p s = some r) : s = p ++ r := by
  induction p generalizing s with
  | nil =>
    simp only [lit, Option.some.injEq] at h
    simp [h]
  | cons c cs ih =>
    match s with
    | [] => simp [lit] at h
    | d :: ds =>
      simp only [lit] at h
      by_cases hd : d = c
      · rw [if_pos hd] at h
        subst hd
        simp [ih h]
      · rw [if_neg hd] at h
        cases h

theorem lit_self (p r : Cs) : lit p (p ++ r) = some r := by
  induction p with
  | nil => simp [lit]
  | cons c cs ih => simp [lit, ih]

theorem manyP_append (q : Char → Bool) (s : Cs) :
    (manyP q s).1 ++ (manyP q s).2 = s := by
  induction s with
  | nil => simp [manyP]
  | cons c cs ih =>
    by_cases h : q c
    · simp [manyP, h, ih]
    · simp [manyP, h]

theorem manyP_all (q : Char → Bool) (s : Cs) : (manyP q s).1.all q = true := by
  induction s with
  | nil => simp [manyP]
  | cons c cs ih =>
    by_cases h : q c
    · simp [manyP, h, ih]
    · simp [manyP, h]

theorem manyP_stop {q : Char → Bool} {l : Cs} {c : Char}
    (hl : l.all q = true) (hc : q c = false) (r : Cs) :
    manyP q (l ++ c :: r) = (l, c :: r) := by
  induction l with
  | nil => simp [manyP, hc]
  | cons a as ih =>
    simp only [List.all_cons, Bool.and_eq_true] at hl
    simp [manyP, hl.1, ih hl.2]

theorem many1_eq_some {q : Char → Bool} {s t r : Cs}
    (h : many1 q s = some (t, r)) :
    s = t ++ r ∧ t ≠ [] ∧ t.all q = true := by
  unfold many1 at h
  rcases hm : manyP q s with ⟨t1, r1⟩
  rw [hm] at h
  match t1, h with
  | a :: as, h =>
    simp only [Option.some.injEq, Prod.mk.injEq] at h
    obtain ⟨ht, hr⟩ := h
    subst ht; subst hr
    refine ⟨?_, by simp, ?_⟩
    · have := manyP_append q s
      rw [hm] at this
      exact this.symm
    · have := manyP_all q s
      rw [hm] at this
      exact this

theorem many1_exact {q : Char → Bool} {l : Cs} {c : Char}
    (hne : l ≠ []) (hl : l.all q = true) (hc : q c = false) (r : Cs) :
    many1 q (l ++ c :: r) = some (l, c :: r) := by
  unfold many1
  rw [manyP_stop hl hc]
  match l, hne with
  | a :: as, _ => rfl

theorem optTag_sub {tag : Cs} {q : Char → Bool} {s r : Cs}
    (h : optTag tag q s = some r) : ∃ a, s = a ++ r := by
  unfold optTag at h
  rcases h1 : lit tag s with _ | r1 <;> simp [h1] at h
  · exact ⟨[], by simp [h]⟩
  · rcases h2 : many1 q r1 with _ | ⟨t, r2⟩ <;> simp [h2] at h
    subst h
    obtain ⟨hr1, -, -⟩ := many1_eq_some h2
    exact ⟨tag ++ t, by simp [lit_eq_some h1, hr1]⟩

theorem optClose_sub {tag : Cs} {q : Char → Bool} {close s r : Cs}
    (h : optClose tag q close s = some r) : ∃ a, s = a ++ r := by
  unfold optClose at h
  rcases h1 : lit tag s with _ | r1 <;> simp [h1] at h
  · exact ⟨[], by simp [h]⟩
  · rcases h2 : many1 q r1 with _ | ⟨t, r2⟩ <;> simp [h2] at h
    obtain ⟨hr1, -, -⟩ := many1_eq_some h2
    exact ⟨tag ++ t ++ close, by simp [lit_eq_some h1, hr1, lit_eq_some h]⟩

theorem optU_sub (s : Cs) : ∃ a, s = a ++ optU s := by
  match s with
  | [] => exact ⟨[], rfl⟩
  | c :: cs =>
    by_cases h : c = '_'
    · subst h
      exact ⟨['_'], rfl⟩
    · refine ⟨[], ?_⟩
      show c :: cs = optU (c :: cs)
      unfold optU
      split
      · next r heq =>
        injection heq with h1 h2
        exact absurd h1 h
      · rfl

theorem optBackref_append (g2 : Option Cs) (s : Cs) :
    s = (optBackref g2 s).1 ++ (optBackref g2 s).2 := by
  match g2 with
  | none => simp [optBackref]
  | some v =>
    simp only [optBackref]
    rcases h : lit ('_' :: v) s with _ | r
    · simp
    · simpa using lit_eq_some h

theorem optBackref_spec (g2 : Option Cs) (s : Cs) :
    (optBackref g2 s).1 = [] ∨
      ∃ v, g2 = some v ∧ (optBackref g2 s).1 = '_' :: v := by
  match g2 with
  | none => simp [optBackref]
  | some v =>
    simp only [optBackref]
    rcases h : lit ('_' :: v) s with _ | r
    · simp
    · exact Or.inr ⟨v, rfl, rfl⟩

theorem firstLit_sub {mods : List Cs} {s r : Cs}
    (h : firstLit mods s = some r) : ∃ m ∈ mods, s = m ++ r := by
  induction mods with
  | nil => cases h
  | cons m ms ih =>
    simp only [firstLit] at h
    rcases h1 : lit m s with _ | r1 <;> simp [h1] at h
    · obtain ⟨m2, hm2, hs⟩ := ih h
      exact ⟨m2, by simp [hm2], hs⟩
    · subst h
      exact ⟨m, by simp, lit_eq_some h1⟩

theorem parseSubjectDir_eq_some {s g1 r : Cs}
    (h : parseSubjectDir s = some (g1, r)) :
    ∃ lab, lab ≠ [] ∧ lab.all isAlnum = true ∧ g1 = tl "sub-" ++ lab ∧
      s = tl "/sub-" ++ (lab ++ '/' :: r) := by
  unfold parseSubjectDir at h
  rcases h1 : lit (tl "/sub-") s with _ | r1 <;> simp [h1] at h
  rcases h2 : many1 isAlnum r1 with _ | ⟨lab, r2⟩ <;> simp [h2] at h
  rcases h3 : lit (tl "/") r2 with _ | r3 <;> simp [h3] at h
  obtain ⟨hg, hr⟩ := h
  subst hg; subst hr
  obtain ⟨hr1, hne, hall⟩ := many1_eq_some h2
  refine ⟨lab, hne, hall, rfl, ?_⟩
  have h3' := lit_eq_some h3
  have h1' := lit_eq_some h1
  rw [h1', hr1, h3']
  rfl

theorem parseSubjectDir_pos {lab : Cs} (hne : lab ≠ [])
    (hall : lab.all isAlnum = true) (r : Cs) :
    parseSubjectDir (tl "/sub-" ++ (lab ++ '/' :: r)) =
      some (tl "sub-" ++ lab, r) := by
  unfold parseSubjectDir
  simp only [lit_self, @many1_exact isAlnum lab '/' hne hall (by decide) r]
  have hsl : lit (tl "/") ('/' :: r) = some r := rfl
  simp [hsl]

theorem parseOptSesDir_eq_some {s : Cs} {g2 : Option Cs} {r : Cs}
    (h : parseOptSesDir s = some (g2, r)) :
    (g2 = none ∧ r = s) ∨
      ∃ lab, lab ≠ [] ∧ lab.all isAlnum = true ∧
        g2 = some (tl "ses-" ++ lab) ∧ s = tl "ses-" ++ lab ++ '/' :: r := by
  unfold parseOptSesDir at h
  rcases h1 : lit (tl "ses-") s with _ | r1 <;> simp [h1] at h
  · exact Or.inl ⟨h.1.symm, h.2.symm⟩
  rcases h2 : many1 isAlnum r1 with _ | ⟨lab, r2⟩ <;> simp [h2] at h
  rcases h3 : lit (tl "/") r2 with _ | r3 <;> simp [h3] at h
  obtain ⟨hg, hr⟩ := h
  subst hg; subst hr
  obtain ⟨hr1, hne, hall⟩ := many1_eq_some h2
  refine Or.inr ⟨lab, hne, hall, rfl, ?_⟩
  rw [lit_eq_some h1, hr1, lit_eq_some h3]
  rfl

theorem parseOptSesDir_pos {lab : Cs} (hne : lab ≠ [])
    (hall : lab.all isAlnum = true) (r : Cs) :
    parseOptSesDir (tl "ses-" ++ (lab ++ '/' :: r)) =
      some (some (tl "ses-" ++ lab), r) := by
  unfold parseOptSesDir
  simp only [lit_self, @many1_exact isAlnum lab '/' hne hall (by decide) r]
  have hsl : lit (tl "/") ('/' :: r) = some r := rfl
  simp [hsl]

theorem subSesMod_eq_some {mods : List Cs} {s g1 : Cs} {g2 : Option Cs} {r : Cs}
    (h : subSesMod mods s = some (g1, g2, r)) :
    ∃ lab mid, lab ≠ [] ∧ lab.all isAlnum = true ∧ g1 = tl "sub-" ++ lab ∧
      s = tl "/sub-" ++ lab ++ '/' :: (mid ++ (tl "sub-" ++ lab) ++ r) := by
  unfold subSesMod at h
  rcases h1 : parseSubjectDir s with _ | ⟨g1', r1⟩ <;> simp [h1] at h
  rcases h2 : parseOptSesDir r1 with _ | ⟨g2', r2⟩ <;> simp [h2] at h
  rcases h3 : firstLit mods r2 with _ | r3 <;> simp [h3] at h
  rcases h4 : lit g1' r3 with _ | r4 <;> simp [h4] at h
  obtain ⟨hg1, hg2, hr⟩ := h
  subst hg1; subst hg2; subst hr
  obtain ⟨lab, hne, hall, hg, hs⟩ := parseSubjectDir_eq_some h1
  obtain ⟨m, -, hr2⟩ := firstLit_sub h3
  have hr3 := lit_eq_some h4
  subst hg
  rcases parseOptSesDir_eq_some h2 with ⟨-, hr1⟩ | ⟨lab2, -, -, -, hr1⟩
  · refine ⟨lab, m, hne, hall, rfl, ?_⟩
    rw [hs, hr1.symm, hr2, hr3]
    simp [tl]
  · refine ⟨lab, (tl "ses-" ++ lab2 ++ ['/']) ++ m, hne, hall, rfl, ?_⟩
    rw [hs, hr1, hr2, hr3]
    simp [tl]

/-! ### Claim C2 -/

/-- C2: when both the session directory and the filename carry a session
token, is_bids accepts exactly when the labels are identical: the matching
path is accepted, the mismatching one rejected. -/
theorem c2_session_label_consistency :
    BIDSValidator.is_bids (BIDSValidator.init true)
        "/sub-01/ses-test/anat/sub-01_ses-test_T1w.nii.gz" = true ∧
    BIDSValidator.is_bids (BIDSValidator.init true)
        "/sub-01/ses-test/anat/sub-01_ses-other_T1w.nii.gz" = false :=
  ⟨rfl, rfl⟩

/-! ### Claim C4 -/

/-- C4: get_path_values raises on every path: compiling its first pattern
already fails with re.error (the final parenthesis of the subject pattern
closes no group), so no subject or session value is ever returned. -/
theorem c4_get_path_values_raises (v : BIDSValidator) (path : String) :
    v.get_path_values path = Except.error "unbalanced parenthesis" := rfl

/-! ### Claim C9 -/

/-- C9: is_bids is a deterministic pure function of the path and the
index_associated configuration: any two validators built by __init__ from
the same flag classify every path identically, so two calls with the same
path and configuration always agree and no call changes the validator. -/
theorem c9_is_bids_deterministic (b : Bool) (path : String)
    (v w : BIDSValidator) (hv : v = BIDSValidator.init b)
    (hw : w = BIDSValidator.init b) :
    v.is_bids path = w.is_bids path := by
  rw [hv, hw]

/-- Witness for C9 at a concrete flag and path. -/
theorem c9_is_bids_deterministic_witness :
    BIDSValidator.is_bids (BIDSValidator.init true) "/participants.tsv" =
      BIDSValidator.is_bids (BIDSValidator.init true) "/participants.tsv" :=
  c9_is_bids_deterministic true "/participants.tsv" _ _ rfl rfl

/-! ### Claim C3 -/

/-- C3: is_bids equals the disjunction of the eleven category rules: a
path is valid exactly when some rule accepts it, and evaluating the rules
in any other order yields the same boolean. -/
theorem c3_is_bids_or_of_rules (v : BIDSValidator) (path : String) :
    (v.is_bids path = true ↔ ∃ r ∈ v.ruleList, r path = true) ∧
    ∀ l : List (String → Bool), v.ruleList.Perm l →
      l.any (fun r => r path) = v.is_bids path := by
  have hbase : (v.ruleList).any (fun r => r path) = v.is_bids path := by
    simp [BIDSValidator.ruleList, BIDSValidator.is_bids, Bool.or_assoc]
  constructor
  · rw [← hbase]
    simp [List.any_eq_true]
  · intro l hperm
    rw [← hbase]
    rcases hb : (v.ruleList).any (fun r => r path) with _ | _
    · rcases hl : l.any (fun r => r path) with _ | _
      · rfl
      · exfalso
        rw [List.any_eq_true] at hl
        obtain ⟨r, hr, hrp⟩ := hl
        have : r ∈ v.ruleList := (hperm.mem_iff).2 hr
        have : (v.ruleList).any (fun r => r path) = true :=
          List.any_eq_true.2 ⟨r, this, hrp⟩
        rw [hb] at this
        cases this
    · rw [List.any_eq_true] at hb
      obtain ⟨r, hr, hrp⟩ := hb
      exact List.any_eq_true.2 ⟨r, (hperm.mem_iff).1 hr, hrp⟩

/-- Witness for C3: the equivalence instantiated at a concrete validator,
path and reordering of the rule list. -/
theorem c3_is_bids_or_of_rules_witness :
    ((BIDSValidator.init true).ruleList.reverse.any
        (fun r => r "/participants.tsv")) =
      (BIDSValidator.init true).is_bids "/participants.tsv" :=
  (c3_is_bids_or_of_rules (BIDSValidator.init true) "/participants.tsv").2
    (BIDSValidator.init true).ruleList.reverse (List.reverse_perm _).symm

/-! ### Claim C1 -/

theorem subSesMod_ses {mods : List Cs} {s g1 : Cs} {g2 : Option Cs} {r : Cs}
    (h : subSesMod mods s = some (g1, g2, r)) :
    g2 = none ∨ ∃ v, g2 = some v ∧ v ≠ [] := by
  unfold subSesMod at h
  rcases h1 : parseSubjectDir s with _ | ⟨g1', r1⟩ <;> simp [h1] at h
  rcases h2 : parseOptSesDir r1 with _ | ⟨g2', r2⟩ <;> simp [h2] at h
  rcases h3 : firstLit mods r2 with _ | r3 <;> simp [h3] at h
  rcases h4 : lit g1' r3 with _ | r4 <;> simp [h4] at h
  obtain ⟨-, hg2, -⟩ := h
  subst hg2
  rcases parseOptSesDir_eq_some h2 with ⟨hnone, -⟩ | ⟨lab, -, -, hsome, -⟩
  · exact Or.inl hnone
  · refine Or.inr ⟨tl "ses-" ++ lab, hsome, ?_⟩
    show ('s' :: (tl "es-" ++ lab)) ≠ []
    simp

theorem anatRe_groups {sufs : List String} {s : Cs} {g : List Cs}
    (h : anatRe sufs s = some g) :
    ∃ g1 g2e g3, g = [g1, g2e, g3] ∧
      (g3 = [] ∨ (g3 = '_' :: g2e ∧ g2e ≠ [])) := by
  unfold anatRe at h
  rcases h1 : subSesMod [tl "anat/"] s with _ | ⟨g1, g2, s1⟩ <;> simp [h1] at h
  rcases hb : optBackref g2 s1 with ⟨g3, s2⟩
  simp only [hb] at h
  rcases ha : optTag (tl "_acq-") isAlnum s2 with _ | s3 <;> simp [ha] at h
  rcases hc : optTag (tl "_rec-") isAlnum s3 with _ | s4 <;> simp [hc] at h
  rcases hu : optTag (tl "_run-") Char.isDigit s4 with _ | s5 <;> simp [hu] at h
  by_cases ht : sufDotExtTail (tl "_") sufs ["nii.gz", "nii", "json"] s5 <;>
    simp [ht] at h
  refine ⟨g1, g2.getD [], g3, h.symm, ?_⟩
  have hspec := optBackref_spec g2 s1
  rw [hb] at hspec
  rcases hspec with h0 | ⟨v, hv, h0⟩
  · exact Or.inl h0
  · subst hv
    refine Or.inr ⟨by simpa using h0, ?_⟩
    rcases subSesMod_ses h1 with hn | ⟨w, hw, hwne⟩
    · cases hn
    · simp only [Option.some.injEq] at hw
      simpa [hw] using hwne

theorem conditional_match_of_groups {g1 g2e g3 : Cs}
    (hinv : g3 = [] ∨ (g3 = '_' :: g2e ∧ g2e ≠ [])) :
    (BIDSValidator.conditional_match (some [g1, g2e, g3]) = true ↔
      (g2e = [] ∨ g3 ≠ [])) := by
  rcases hinv with h0 | ⟨h0, hne⟩
  · subst h0
    simp [BIDSValidator.conditional_match]
  · subst h0
    simp [BIDSValidator.conditional_match]

/-- C1 (amended): on a structural match of the anatomical pattern, the
rule accepts exactly when the directory session capture is absent or the
filename backreference capture is present; a present filename capture is
always an underscore followed by the exact directory capture (the
backreference cannot disagree), but a path whose directory supplies a
session while its filename omits one is rejected — in particular
/sub-01/ses-test/anat/sub-01_T1w.nii.gz is rejected by is_bids. -/
theorem c1_conditional_match_amended :
    (∀ (v : BIDSValidator) (path : String) (g : List Cs),
        anatRe v.anat_suffixes (tl path) = some g →
          (v.is_anat path = true ↔ (g.getD 1 [] = [] ∨ g.getD 2 [] ≠ [])) ∧
          (g.getD 2 [] ≠ [] → g.getD 2 [] = '_' :: g.getD 1 [])) ∧
    BIDSValidator.is_bids (BIDSValidator.init true)
      "/sub-01/ses-test/anat/sub-01_T1w.nii.gz" = false := by
  constructor
  · intro v path g h
    obtain ⟨g1, g2e, g3, hg, hinv⟩ := anatRe_groups h
    subst hg
    constructor
    · have : v.is_anat path = BIDSValidator.conditional_match (some [g1, g2e, g3]) := by
        rw [BIDSValidator.is_anat, h]
      rw [this]
      simpa using conditional_match_of_groups hinv
    · intro hne
      rcases hinv with h0 | ⟨h0, -⟩
      · simp [h0] at hne
      · simpa using h0
  · rfl

/-- Counterexample to C1 as stated: the path whose filename omits the
session while the directory supplies it is rejected by is_bids. -/
theorem c1_claim_counterexample :
    BIDSValidator.is_bids (BIDSValidator.init true)
      "/sub-01/ses-test/anat/sub-01_T1w.nii.gz" = false := rfl

/-- Witness for C1 at a concrete matched path and its groups. -/
theorem c1_conditional_match_amended_witness :
    (((BIDSValidator.init true).is_anat
        "/sub-01/ses-test/anat/sub-01_ses-test_T1w.nii.gz" = true) ↔
      (([tl "sub-01", tl "ses-test", tl "_ses-test"].getD 1 []) = [] ∨
        ([tl "sub-01", tl "ses-test", tl "_ses-test"].getD 2 []) ≠ [])) ∧
    (([tl "sub-01", tl "ses-test", tl "_ses-test"].getD 2 []) ≠ [] →
      ([tl "sub-01", tl "ses-test", tl "_ses-test"].getD 2 []) =
        '_' :: ([tl "sub-01", tl "ses-test", tl "_ses-test"].getD 1 [])) :=
  c1_conditional_match_amended.1 (BIDSValidator.init true)
    "/sub-01/ses-test/anat/sub-01_ses-test_T1w.nii.gz"
    [tl "sub-01", tl "ses-test", tl "_ses-test"] rfl

/-! ### Claim C6 -/

theorem litW_nil_some {s r : Cs} (h : litW [] s = some r) : s = r := by
  simpa [litW] using h

theorem litW_some_cons {c : Char} {ps : Pat} {s r : Cs}
    (h : litW (some c :: ps) s = some r) :
    ∃ s1, s = c :: s1 ∧ litW ps s1 = some r := by
  match s with
  | [] => cases h
  | d :: ds =>
    simp only [litW] at h
    by_cases hd : d = c
    · subst hd
      rw [if_pos rfl] at h
      exact ⟨ds, rfl, h⟩
    · rw [if_neg hd] at h
      cases h

theorem litW_none_cons {ps : Pat} {s r : Cs}
    (h : litW (none :: ps) s = some r) :
    ∃ d ds, d ≠ '\n' ∧ s = d :: ds ∧ litW ps ds = some r := by
  match s with
  | [] => cases h
  | d :: ds =>
    simp only [litW] at h
    by_cases hd : d = '\n'
    · rw [if_pos hd] at h
      cases h
    · rw [if_neg hd] at h
      exact ⟨d, ds, hd, rfl, h⟩

theorem litW_psome {l : Cs} {s r : Cs}
    (h : litW (l.map some) s = some r) : s = l ++ r := by
  induction l generalizing s with
  | nil => simpa using litW_nil_some h
  | cons c cs ih =>
    obtain ⟨s1, hs, h1⟩ := litW_some_cons h
    simp [hs, ih h1]

theorem litW_append {p1 p2 : Pat} {s r : Cs}
    (h : litW (p1 ++ p2) s = some r) :
    ∃ m, litW p1 s = some m ∧ litW p2 m = some r := by
  induction p1 generalizing s with
  | nil => exact ⟨s, rfl, by simpa using h⟩
  | cons p ps ih =>
    match p with
    | some c =>
      obtain ⟨s1, hs, h1⟩ := litW_some_cons h
      obtain ⟨m, hm1, hm2⟩ := ih h1
      subst hs
      exact ⟨m, by simp [litW, hm1], hm2⟩
    | none =>
      obtain ⟨d, ds, hd, hs, h1⟩ := litW_none_cons h
      obtain ⟨m, hm1, hm2⟩ := ih h1
      subst hs
      exact ⟨m, by simp [litW, hd, hm1], hm2⟩

theorem atEnd_true {r : Cs} (h : atEnd r = true) : r = [] ∨ r = ['\n'] := by
  simpa [atEnd] using h

theorem altsEnd_true {alts : List String} {s : Cs}
    (h : altsEnd alts s = true) :
    ∃ a ∈ alts, ∃ r, litW (pw a) s = some r ∧ atEnd r = true := by
  unfold altsEnd at h
  rw [List.any_eq_true] at h
  obtain ⟨a, ha, hm⟩ := h
  rcases hw : litW (pw a) s with _ | r <;> simp only [hw] at hm
  · cases hm
  · exact ⟨a, ha, r, hw, hm⟩

theorem sufDotExtTail_true {mark : Cs} {sufs exts : List String} {s : Cs}
    (h : sufDotExtTail mark sufs exts s = true) :
    ∃ suf ∈ sufs, ∃ c r, c ≠ '\n' ∧ s = (mark ++ tl suf) ++ c :: r ∧
      altsEnd exts r = true := by
  unfold sufDotExtTail at h
  rw [List.any_eq_true] at h
  obtain ⟨suf, hsuf, hm⟩ := h
  rcases hl : lit (mark ++ tl suf) s with _ | r0 <;> simp only [hl] at hm
  · cases hm
  · match r0, hm with
    | c :: r, hm =>
      simp only [Bool.and_eq_true, Bool.not_eq_true', beq_eq_false_iff_ne] at hm
      exact ⟨suf, hsuf, c, r, hm.1, lit_eq_some hl, hm.2⟩

theorem subSesMod_sub {mods : List Cs} {s g1 : Cs} {g2 : Option Cs} {r : Cs}
    (h : subSesMod mods s = some (g1, g2, r)) : ∃ a, s = a ++ r := by
  obtain ⟨lab, mid, -, -, -, hs⟩ := subSesMod_eq_some h
  exact ⟨tl "/sub-" ++ lab ++ '/' :: (mid ++ (tl "sub-" ++ lab)), by simp [hs]⟩

theorem anatRe_some_tail {sufs : List String} {s : Cs} {g : List Cs}
    (h : anatRe sufs s = some g) :
    ∃ pre s5, s = pre ++ s5 ∧
      sufDotExtTail (tl "_") sufs ["nii.gz", "nii", "json"] s5 = true := by
  unfold anatRe at h
  rcases h1 : subSesMod [tl "anat/"] s with _ | ⟨g1, g2, s1⟩ <;> simp [h1] at h
  rcases hb : optBackref g2 s1 with ⟨g3, s2⟩
  simp only [hb] at h
  rcases ha : optTag (tl "_acq-") isAlnum s2 with _ | s3 <;> simp [ha] at h
  rcases hc : optTag (tl "_rec-") isAlnum s3 with _ | s4 <;> simp [hc] at h
  rcases hu : optTag (tl "_run-") Char.isDigit s4 with _ | s5 <;> simp [hu] at h
  by_cases ht : sufDotExtTail (tl "_") sufs ["nii.gz", "nii", "json"] s5 <;>
    simp [ht] at h
  obtain ⟨a1, hs1⟩ := subSesMod_sub h1
  have hs2 : s1 = g3 ++ s2 := by
    have := optBackref_append g2 s1
    rw [hb] at this
    exact this
  obtain ⟨a2, hs3⟩ := optTag_sub ha
  obtain ⟨a3, hs4⟩ := optTag_sub hc
  obtain ⟨a4, hs5⟩ := optTag_sub hu
  exact ⟨a1 ++ g3 ++ a2 ++ a3 ++ a4, s5, by simp [hs1, hs2, hs3, hs4, hs5], ht⟩

/-- C6 (amended): a path accepted by the anatomical rule ends in an
underscore, a suffix from the fixed anatomical set, one arbitrary
non-newline character (the regex dot), and then nii, json, or nii
followed by an arbitrary non-newline character and gz, optionally
followed by one final newline; consequently the path
/sub-01/anat/sub-01_acq-23_rec-CSD_T1w.exe is rejected by is_bids. -/
theorem c6_anat_tail_amended :
    (∀ (v : BIDSValidator) (path : String), v.is_anat path = true →
      ∃ pre suf c ext fin, suf ∈ v.anat_suffixes ∧ c ≠ '\n' ∧
        (ext = tl "nii" ∨ ext = tl "json" ∨
          ∃ c2, c2 ≠ '\n' ∧ ext = tl "nii" ++ c2 :: tl "gz") ∧
        (fin = [] ∨ fin = ['\n']) ∧
        tl path = pre ++ ('_' :: tl suf) ++ c :: (ext ++ fin)) ∧
    BIDSValidator.is_bids (BIDSValidator.init true)
      "/sub-01/anat/sub-01_acq-23_rec-CSD_T1w.exe" = false := by
  constructor
  · intro v path h
    rw [BIDSValidator.is_anat] at h
    rcases hre : anatRe v.anat_suffixes (tl path) with _ | g <;>
      simp only [hre, BIDSValidator.conditional_match] at h
    · cases h
    obtain ⟨pre, s5, hsplit, ht⟩ := anatRe_some_tail hre
    obtain ⟨suf, hsuf, c, r, hcnl, hs5, hext⟩ := sufDotExtTail_true ht
    obtain ⟨a, ha, r2, hw, hend⟩ := altsEnd_true hext
    have hfin := atEnd_true hend
    have hsplit2 : tl path = pre ++ ('_' :: tl suf) ++ c :: r := by
      rw [hsplit, hs5]
      simp only [List.append_assoc, List.cons_append]
      rfl
    simp only [List.mem_cons, List.not_mem_nil, or_false] at ha
    rcases ha with rfl | rfl | rfl
    · -- nii.gz with the wildcard dot
      have hpat : pw "nii.gz" =
          (tl "nii").map some ++ (none :: (tl "gz").map some) := rfl
      rw [hpat] at hw
      obtain ⟨m1, hm1, hm2⟩ := litW_append hw
      obtain ⟨c2, ds, hc2, hm1eq, hgz⟩ := litW_none_cons hm2
      refine ⟨pre, suf, c, tl "nii" ++ c2 :: tl "gz", r2, hsuf, hcnl,
        Or.inr (Or.inr ⟨c2, hc2, rfl⟩), hfin, ?_⟩
      rw [hsplit2, litW_psome hm1, hm1eq, litW_psome hgz]
      simp
    · -- nii
      have hr : r = tl "nii" ++ r2 := litW_psome (by simpa using hw)
      exact ⟨pre, suf, c, tl "nii", r2, hsuf, hcnl, Or.inl rfl, hfin,
        by rw [hsplit2, hr]⟩
    · -- json
      have hr : r = tl "json" ++ r2 := litW_psome (by simpa using hw)
      exact ⟨pre, suf, c, tl "json", r2, hsuf, hcnl, Or.inr (Or.inl rfl), hfin,
        by rw [hsplit2, hr]⟩
  · rfl

/-- Counterexample to C6 as stated: is_bids (through the anatomical rule)
accepts a path in which the dot of the extension pattern matched the
letter x, so the path ends in T1wxnii and not in .nii, .nii.gz or .json. -/
theorem c6_claim_counterexample :
    (BIDSValidator.init true).is_anat "/sub-01/anat/sub-01_T1wxnii" = true ∧
    BIDSValidator.is_bids (BIDSValidator.init true)
      "/sub-01/anat/sub-01_T1wxnii" = true ∧
    (tl ".nii").isSuffixOf (tl "/sub-01/anat/sub-01_T1wxnii") = false ∧
    (tl ".nii.gz").isSuffixOf (tl "/sub-01/anat/sub-01_T1wxnii") = false ∧
    (tl ".json").isSuffixOf (tl "/sub-01/anat/sub-01_T1wxnii") = false := by
  refine ⟨rfl, rfl, ?_, ?_, ?_⟩ <;> decide

/-- Witness for C6 at a concrete accepted path. -/
theorem c6_anat_tail_amended_witness :
    ∃ pre suf c ext fin,
      suf ∈ (BIDSValidator.init true).anat_suffixes ∧ c ≠ '\n' ∧
      (ext = tl "nii" ∨ ext = tl "json" ∨
        ∃ c2, c2 ≠ '\n' ∧ ext = tl "nii" ++ c2 :: tl "gz") ∧
      (fin = [] ∨ fin = ['\n']) ∧
      tl "/sub-01/anat/sub-01_T1w.nii.gz" =
        pre ++ ('_' :: tl suf) ++ c :: (ext ++ fin) :=
  c6_anat_tail_amended.1 (BIDSValidator.init true)
    "/sub-01/anat/sub-01_T1w.nii.gz" rfl

/-! ### Claim C10 -/

/-- C10: for a path that does not begin with /code/, /derivatives/,
/sourcedata/ or /stimuli/, the index_associated flag does not influence
is_bids: only the associated-data rule reads it, and on such a path that
rule rejects for either flag value. -/
theorem c10_flag_only_associated (b1 b2 : Bool) (path : String)
    (h1 : lit (tl "/code/") (tl path) = none)
    (h2 : lit (tl "/derivatives/") (tl path) = none)
    (h3 : lit (tl "/sourcedata/") (tl path) = none)
    (h4 : lit (tl "/stimuli/") (tl path) = none) :
    (BIDSValidator.init b1).is_bids path = (BIDSValidator.init b2).is_bids path := by
  have hassoc : ∀ b : Bool,
      (BIDSValidator.init b).is_associated_data path = false := by
    intro b
    rcases b with _ | _
    · rfl
    · show (match firstLit [tl "/code/", tl "/derivatives/", tl "/sourcedata/",
          tl "/stimuli/"] (tl path) with
        | some r => dotStarEnd r
        | none => false) = false
      rcases hf : firstLit [tl "/code/", tl "/derivatives/", tl "/sourcedata/",
          tl "/stimuli/"] (tl path) with _ | r
      · simp
      · exfalso
        obtain ⟨m, hm, hpath⟩ := firstLit_sub hf
        simp only [List.mem_cons, List.not_mem_nil, or_false] at hm
        rcases hm with rfl | rfl | rfl | rfl
        · rw [hpath, lit_self] at h1; cases h1
        · rw [hpath, lit_self] at h2; cases h2
        · rw [hpath, lit_self] at h3; cases h3
        · rw [hpath, lit_self] at h4; cases h4
  unfold BIDSValidator.is_bids
  rw [hassoc b1, hassoc b2]
  rfl

/-- Witness for C10 at a concrete path and flag pair. -/
theorem c10_flag_only_associated_witness :
    (BIDSValidator.init true).is_bids "/sub-01/anat/sub-01_T1w.nii.gz" =
      (BIDSValidator.init false).is_bids "/sub-01/anat/sub-01_T1w.nii.gz" :=
  c10_flag_only_associated true false "/sub-01/anat/sub-01_T1w.nii.gz"
    rfl rfl rfl rfl

/-! ### Claim C5 -/

theorem is_bids_true_split (path : String) :
    (BIDSValidator.init true).is_bids path =
      ((BIDSValidator.init false).is_bids path ||
        (BIDSValidator.init true).is_associated_data path) := by
  unfold BIDSValidator.is_bids
  rw [show (BIDSValidator.init false).is_associated_data path = false from rfl]
  rw [show (BIDSValidator.init true).is_top_level path =
    (BIDSValidator.init false).is_top_level path from rfl]
  rw [show (BIDSValidator.init true).is_session_level path =
    (BIDSValidator.init false).is_session_level path from rfl]
  rw [show (BIDSValidator.init true).is_subject_level path =
    (BIDSValidator.init false).is_subject_level path from rfl]
  rw [show (BIDSValidator.init true).is_anat path =
    (BIDSValidator.init false).is_anat path from rfl]
  rw [show (BIDSValidator.init true).is_dwi path =
    (BIDSValidator.init false).is_dwi path from rfl]
  rw [show (BIDSValidator.init true).is_func path =
    (BIDSValidator.init false).is_func path from rfl]
  rw [show (BIDSValidator.init true).is_behavioral path =
    (BIDSValidator.init false).is_behavioral path from rfl]
  rw [show (BIDSValidator.init true).is_cont path =
    (BIDSValidator.init false).is_cont path from rfl]
  rw [show (BIDSValidator.init true).is_field_map path =
    (BIDSValidator.init false).is_field_map path from rfl]
  rw [show (BIDSValidator.init true).is_phenotypic path =
    (BIDSValidator.init false).is_phenotypic path from rfl]
  cases (BIDSValidator.init true).is_associated_data path <;> simp

/-- C5 (amended): for any path under code/, derivatives/, sourcedata/ or
stimuli/: with index_associated unset is_bids always rejects; with the
flag set is_bids accepts exactly when the remainder holds no newline other
than possibly a single final one (the dot of the dot-star tail of the
associated-data pattern does not match a newline). -/
theorem c5_associated_toggle_amended (d rest : String)
    (hd : d = "code" ∨ d = "derivatives" ∨ d = "sourcedata" ∨ d = "stimuli") :
    ((BIDSValidator.init false).is_bids ("/" ++ d ++ "/" ++ rest) = false) ∧
    ((BIDSValidator.init true).is_bids ("/" ++ d ++ "/" ++ rest) =
      dotStarEnd (tl rest)) := by
  rcases hd with rfl | rfl | rfl | rfl
  · refine ⟨rfl, ?_⟩
    rw [is_bids_true_split]
    rw [show (BIDSValidator.init false).is_bids ("/" ++ "code" ++ "/" ++ rest) =
      false from rfl]
    rw [show (BIDSValidator.init true).is_associated_data
      ("/" ++ "code" ++ "/" ++ rest) = dotStarEnd (tl rest) from rfl]
    simp
  · refine ⟨rfl, ?_⟩
    rw [is_bids_true_split]
    rw [show (BIDSValidator.init false).is_bids
      ("/" ++ "derivatives" ++ "/" ++ rest) = false from rfl]
    rw [show (BIDSValidator.init true).is_associated_data
      ("/" ++ "derivatives" ++ "/" ++ rest) = dotStarEnd (tl rest) from rfl]
    simp
  · refine ⟨rfl, ?_⟩
    rw [is_bids_true_split]
    rw [show (BIDSValidator.init false).is_bids
      ("/" ++ "sourcedata" ++ "/" ++ rest) = false from rfl]
    rw [show (BIDSValidator.init true).is_associated_data
      ("/" ++ "sourcedata" ++ "/" ++ rest) = dotStarEnd (tl rest) from rfl]
    simp
  · refine ⟨rfl, ?_⟩
    rw [is_bids_true_split]
    rw [show (BIDSValidator.init false).is_bids
      ("/" ++ "stimuli" ++ "/" ++ rest) = false from rfl]
    rw [show (BIDSValidator.init true).is_associated_data
      ("/" ++ "stimuli" ++ "/" ++ rest) = dotStarEnd (tl rest) from rfl]
    simp

/-- Counterexample to C5 as stated: a path under code/ whose remainder
holds an inner newline is rejected by is_bids even with the flag set. -/
theorem c5_claim_counterexample :
    BIDSValidator.is_bids (BIDSValidator.init true) "/code/a\nb" = false := rfl

/-- Witness for C5 at a concrete directory and remainder. -/
theorem c5_associated_toggle_amended_witness :
    ((BIDSValidator.init false).is_bids
        ("/" ++ "code" ++ "/" ++ "any.file") = false) ∧
    ((BIDSValidator.init true).is_bids ("/" ++ "code" ++ "/" ++ "any.file") =
      dotStarEnd (tl "any.file")) :=
  c5_associated_toggle_amended "code" "any.file" (Or.inl rfl)

/-! ### Claim C8 -/

theorem conditional_match_some {m : Option (List Cs)}
    (h : BIDSValidator.conditional_match m = true) : ∃ g, m = some g := by
  match m with
  | none => cases h
  | some g => exact ⟨g, rfl⟩

theorem scansRe_roundtrip {s : Cs} {g : List Cs} (h : scansRe s = some g) :
    ∃ lab mid rest, lab ≠ [] ∧ lab.all isAlnum = true ∧
      s = tl "/sub-" ++ lab ++ '/' :: (mid ++ (tl "sub-" ++ lab) ++ rest) := by
  unfold scansRe at h
  rcases h1 : subSesMod [[]] s with _ | ⟨g1, g2, r⟩
  · simp [h1] at h
  · obtain ⟨lab, mid, hne, hall, -, hs⟩ := subSesMod_eq_some h1
    exact ⟨lab, mid, r, hne, hall, hs⟩

theorem funcSesRe_roundtrip {s : Cs} {g : List Cs} (h : funcSesRe s = some g) :
    ∃ lab mid rest, lab ≠ [] ∧ lab.all isAlnum = true ∧
      s = tl "/sub-" ++ lab ++ '/' :: (mid ++ (tl "sub-" ++ lab) ++ rest) := by
  unfold funcSesRe at h
  rcases h1 : subSesMod [[]] s with _ | ⟨g1, g2, r⟩
  · simp [h1] at h
  · obtain ⟨lab, mid, hne, hall, -, hs⟩ := subSesMod_eq_some h1
    exact ⟨lab, mid, r, hne, hall, hs⟩

theorem anatSesRe_roundtrip {sufs : List String} {s : Cs} {g : List Cs}
    (h : anatSesRe sufs s = some g) :
    ∃ lab mid rest, lab ≠ [] ∧ lab.all isAlnum = true ∧
      s = tl "/sub-" ++ lab ++ '/' :: (mid ++ (tl "sub-" ++ lab) ++ rest) := by
  unfold anatSesRe at h
  rcases h1 : subSesMod [[]] s with _ | ⟨g1, g2, r⟩
  · simp [h1] at h
  · obtain ⟨lab, mid, hne, hall, -, hs⟩ := subSesMod_eq_some h1
    exact ⟨lab, mid, r, hne, hall, hs⟩

theorem dwiSesRe_roundtrip {s : Cs} {g : List Cs} (h : dwiSesRe s = some g) :
    ∃ lab mid rest, lab ≠ [] ∧ lab.all isAlnum = true ∧
      s = tl "/sub-" ++ lab ++ '/' :: (mid ++ (tl "sub-" ++ lab) ++ rest) := by
  unfold dwiSesRe at h
  rcases h1 : subSesMod [[]] s with _ | ⟨g1, g2, r⟩
  · simp [h1] at h
  · obtain ⟨lab, mid, hne, hall, -, hs⟩ := subSesMod_eq_some h1
    exact ⟨lab, mid, r, hne, hall, hs⟩

theorem anatRe_roundtrip {sufs : List String} {s : Cs} {g : List Cs}
    (h : anatRe sufs s = some g) :
    ∃ lab mid rest, lab ≠ [] ∧ lab.all isAlnum = true ∧
      s = tl "/sub-" ++ lab ++ '/' :: (mid ++ (tl "sub-" ++ lab) ++ rest) := by
  unfold anatRe at h
  rcases h1 : subSesMod [tl "anat/"] s with _ | ⟨g1, g2, r⟩
  · simp [h1] at h
  · obtain ⟨lab, mid, hne, hall, -, hs⟩ := subSesMod_eq_some h1
    exact ⟨lab, mid, r, hne, hall, hs⟩

theorem dwiRe_roundtrip {s : Cs} {g : List Cs} (h : dwiRe s = some g) :
    ∃ lab mid rest, lab ≠ [] ∧ lab.all isAlnum = true ∧
      s = tl "/sub-" ++ lab ++ '/' :: (mid ++ (tl "sub-" ++ lab) ++ rest) := by
  unfold dwiRe at h
  rcases h1 : subSesMod [tl "dwi/"] s with _ | ⟨g1, g2, r⟩
  · simp [h1] at h
  · obtain ⟨lab, mid, hne, hall, -, hs⟩ := subSesMod_eq_some h1
    exact ⟨lab, mid, r, hne, hall, hs⟩

theorem fieldMapRe_roundtrip {s : Cs} {g : List Cs} (h : fieldMapRe s = some g) :
    ∃ lab mid rest, lab ≠ [] ∧ lab.all isAlnum = true ∧
      s = tl "/sub-" ++ lab ++ '/' :: (mid ++ (tl "sub-" ++ lab) ++ rest) := by
  unfold fieldMapRe at h
  rcases h1 : subSesMod [tl "fmap/"] s with _ | ⟨g1, g2, r⟩
  · simp [h1] at h
  · obtain ⟨lab, mid, hne, hall, -, hs⟩ := subSesMod_eq_some h1
    exact ⟨lab, mid, r, hne, hall, hs⟩

theorem funcRe_roundtrip {s : Cs} {g : List Cs} (h : funcRe s = some g) :
    ∃ lab mid rest, lab ≠ [] ∧ lab.all isAlnum = true ∧
      s = tl "/sub-" ++ lab ++ '/' :: (mid ++ (tl "sub-" ++ lab) ++ rest) := by
  unfold funcRe at h
  rcases h1 : subSesMod [tl "func/"] s with _ | ⟨g1, g2, r⟩
  · simp [h1] at h
  · obtain ⟨lab, mid, hne, hall, -, hs⟩ := subSesMod_eq_some h1
    exact ⟨lab, mid, r, hne, hall, hs⟩

theorem behRe_roundtrip {s : Cs} {g : List Cs} (h : behRe s = some g) :
    ∃ lab mid rest, lab ≠ [] ∧ lab.all isAlnum = true ∧
      s = tl "/sub-" ++ lab ++ '/' :: (mid ++ (tl "sub-" ++ lab) ++ rest) := by
  unfold behRe at h
  rcases h1 : subSesMod [tl "beh/"] s with _ | ⟨g1, g2, r⟩
  · simp [h1] at h
  · obtain ⟨lab, mid, hne, hall, -, hs⟩ := subSesMod_eq_some h1
    exact ⟨lab, mid, r, hne, hall, hs⟩

theorem contRe_roundtrip {s : Cs} {g : List Cs} (h : contRe s = some g) :
    ∃ lab mid rest, lab ≠ [] ∧ lab.all isAlnum = true ∧
      s = tl "/sub-" ++ lab ++ '/' :: (mid ++ (tl "sub-" ++ lab) ++ rest) := by
  unfold contRe at h
  rcases h1 : subSesMod [tl "func/", tl "beh/"] s with _ | ⟨g1, g2, r⟩
  · simp [h1] at h
  · obtain ⟨lab, mid, hne, hall, -, hs⟩ := subSesMod_eq_some h1
    exact ⟨lab, mid, r, hne, hall, hs⟩

theorem subjectLevelRe_roundtrip {s : Cs} (h : subjectLevelRe s = true) :
    ∃ lab mid rest, lab ≠ [] ∧ lab.all isAlnum = true ∧
      s = tl "/sub-" ++ lab ++ '/' :: (mid ++ (tl "sub-" ++ lab) ++ rest) := by
  unfold subjectLevelRe at h
  rcases h1 : parseSubjectDir s with _ | ⟨g1, s1⟩ <;> simp only [h1] at h
  · cases h
  · rcases h2 : lit g1 s1 with _ | s2 <;> simp only [h2] at h
    · cases h
    · obtain ⟨lab, hne, hall, hg, hs⟩ := parseSubjectDir_eq_some h1
      refine ⟨lab, [], s2, hne, hall, ?_⟩
      rw [hs, lit_eq_some h2, hg]
      simp

/-- C8: every path accepted by a subject-scoped rule (session-level,
subject-level, anatomical, diffusion, functional, behavioral, continuous
recording, field map) repeats the full marker-plus-label text of the
leading subject directory inside the filename (the regex backreference
to group one), so the two subject labels are textually identical; the
path /sub-01/anat/sub-02_T1w.nii.gz with differing labels is rejected
by is_bids. -/
theorem c8_subject_label_roundtrip :
    (∀ (b : Bool) (path : String),
        ((BIDSValidator.init b).is_session_level path ||
          (BIDSValidator.init b).is_subject_level path ||
          (BIDSValidator.init b).is_anat path ||
          (BIDSValidator.init b).is_dwi path ||
          (BIDSValidator.init b).is_func path ||
          (BIDSValidator.init b).is_behavioral path ||
          (BIDSValidator.init b).is_cont path ||
          (BIDSValidator.init b).is_field_map path) = true →
      ∃ lab mid rest, lab ≠ [] ∧ lab.all isAlnum = true ∧
        tl path = tl "/sub-" ++ lab ++ '/' ::
          (mid ++ (tl "sub-" ++ lab) ++ rest)) ∧
    BIDSValidator.is_bids (BIDSValidator.init true)
      "/sub-01/anat/sub-02_T1w.nii.gz" = false := by
  constructor
  · intro b path h
    simp only [Bool.or_eq_true] at h
    rcases h with ⟨⟨⟨⟨⟨⟨hses | hsub⟩ | hanat⟩ | hdwi⟩ | hfunc⟩ | hbeh⟩ | hcont⟩ |
      hfmap
    · unfold BIDSValidator.is_session_level at hses
      simp only [Bool.or_eq_true] at hses
      rcases hses with ⟨⟨h1 | h2⟩ | h3⟩ | h4
      · obtain ⟨g, hg⟩ := conditional_match_some h1
        exact scansRe_roundtrip hg
      · obtain ⟨g, hg⟩ := conditional_match_some h2
        exact funcSesRe_roundtrip hg
      · obtain ⟨g, hg⟩ := conditional_match_some h3
        exact anatSesRe_roundtrip hg
      · obtain ⟨g, hg⟩ := conditional_match_some h4
        exact dwiSesRe_roundtrip hg
    · exact subjectLevelRe_roundtrip hsub
    · obtain ⟨g, hg⟩ := conditional_match_some hanat
      exact anatRe_roundtrip hg
    · obtain ⟨g, hg⟩ := conditional_match_some hdwi
      exact dwiRe_roundtrip hg
    · obtain ⟨g, hg⟩ := conditional_match_some hfunc
      exact funcRe_roundtrip hg
    · obtain ⟨g, hg⟩ := conditional_match_some hbeh
      exact behRe_roundtrip hg
    · obtain ⟨g, hg⟩ := conditional_match_some hcont
      exact contRe_roundtrip hg
    · obtain ⟨g, hg⟩ := conditional_match_some hfmap
      exact fieldMapRe_roundtrip hg
  · rfl

/-- Witness for C8 at a concrete accepted anatomical path. -/
theorem c8_subject_label_roundtrip_witness :
    ∃ lab mid rest, lab ≠ [] ∧ lab.all isAlnum = true ∧
      tl "/sub-01/anat/sub-01_T1w.nii.gz" = tl "/sub-" ++ lab ++ '/' ::
        (mid ++ (tl "sub-" ++ lab) ++ rest) :=
  c8_subject_label_roundtrip.1 true "/sub-01/anat/sub-01_T1w.nii.gz" rfl

/-! ### Claim C7 -/

theorem hasTaskTok_cons_of_tail {c : Char} {cs : Cs}
    (h : hasTaskTok cs = true) : hasTaskTok (c :: cs) = true := by
  simp only [hasTaskTok, h, Bool.or_true]

theorem hasTaskTok_append_right {a r : Cs} (h : hasTaskTok r = true) :
    hasTaskTok (a ++ r) = true := by
  induction a with
  | nil => simpa using h
  | cons c cs ih => exact hasTaskTok_cons_of_tail ih

theorem hasTaskTok_head {d : Char} {r : Cs} (hd : isAlnum d = true) :
    hasTaskTok (tl "task-" ++ d :: r) = true := by
  show hasTaskTok ('t' :: (tl "ask-" ++ d :: r)) = true
  simp only [hasTaskTok]
  have hl : lit (tl "task-") ('t' :: (tl "ask-" ++ d :: r)) = some (d :: r) :=
    lit_self (tl "task-") (d :: r)
  rw [hl]
  simp [hd]

theorem hasTaskTok_intro {a : Cs} {d : Char} {r : Cs}
    (hd : isAlnum d = true) :
    hasTaskTok (a ++ (tl "task-" ++ d :: r)) = true :=
  hasTaskTok_append_right (hasTaskTok_head hd)

theorem funcRe_some_task {s : Cs} {g : List Cs} (h : funcRe s = some g) :
    ∃ g1 g2 r, subSesMod [tl "func/"] s = some (g1, g2, r) ∧
      hasTaskTok r = true := by
  unfold funcRe at h
  rcases h1 : subSesMod [tl "func/"] s with _ | ⟨g1, g2, r⟩ <;> simp [h1] at h
  rcases hb : optBackref g2 r with ⟨g3, s3⟩
  simp only [hb] at h
  rcases ht : lit (tl "_task-") s3 with _ | s4 <;> simp [ht] at h
  rcases hm : many1 isAlnum s4 with _ | ⟨t, s5⟩ <;> simp [hm] at h
  have hrs : r = g3 ++ s3 := by
    have := optBackref_append g2 r
    rw [hb] at this
    exact this
  obtain ⟨hs4, htne, hall⟩ := many1_eq_some hm
  have hs3 : s3 = tl "_task-" ++ s4 := lit_eq_some ht
  refine ⟨g1, g2, r, rfl, ?_⟩
  match t, htne, hs4, hall with
  | d :: t2, _, hs4, hall =>
    have hd : isAlnum d = true := by
      simp only [List.all_cons, Bool.and_eq_true] at hall
      exact hall.1
    have hdec : r = (g3 ++ ['_']) ++ (tl "task-" ++ d :: (t2 ++ s5)) := by
      rw [hrs, hs3, hs4]
      simp [show tl "_task-" = '_' :: tl "task-" from rfl]
    rw [hdec]
    exact hasTaskTok_intro hd

theorem contRe_some_task {s : Cs} {g : List Cs} (h : contRe s = some g) :
    ∃ g1 g2 r, subSesMod [tl "func/", tl "beh/"] s = some (g1, g2, r) ∧
      hasTaskTok r = true := by
  unfold contRe at h
  rcases h1 : subSesMod [tl "func/", tl "beh/"] s with _ | ⟨g1, g2, r⟩ <;>
    simp [h1] at h
  rcases hb : optBackref g2 r with ⟨g3, s3⟩
  simp only [hb] at h
  rcases ht : lit (tl "_task-") s3 with _ | s4 <;> simp [ht] at h
  rcases hm : many1 isAlnum s4 with _ | ⟨t, s5⟩ <;> simp [hm] at h
  have hrs : r = g3 ++ s3 := by
    have := optBackref_append g2 r
    rw [hb] at this
    exact this
  obtain ⟨hs4, htne, hall⟩ := many1_eq_some hm
  have hs3 : s3 = tl "_task-" ++ s4 := lit_eq_some ht
  refine ⟨g1, g2, r, rfl, ?_⟩
  match t, htne, hs4, hall with
  | d :: t2, _, hs4, hall =>
    have hd : isAlnum d = true := by
      simp only [List.all_cons, Bool.and_eq_true] at hall
      exact hall.1
    have hdec : r = (g3 ++ ['_']) ++ (tl "task-" ++ d :: (t2 ++ s5)) := by
      rw [hrs, hs3, hs4]
      simp [show tl "_task-" = '_' :: tl "task-" from rfl]
    rw [hdec]
    exact hasTaskTok_intro hd

/-- C7: a path whose directory shape is subject/func/ or
subject/session/func/ but whose filename holds no task token (the literal
task- followed by an alphanumeric character) is rejected by is_bids,
whatever the configuration flag. -/
theorem c7_func_without_task_rejected (b : Bool) (subl sesl fname : Cs)
    (hs : subl ≠ []) (ha : subl.all isAlnum = true)
    (hs2 : sesl ≠ []) (ha2 : sesl.all isAlnum = true)
    (_hslash : fname.all (fun c => !(c == '/')) = true)
    (hnt : hasTaskTok fname = false) :
    (BIDSValidator.init b).is_bids
        (String.mk (tl "/sub-" ++ (subl ++ '/' :: (tl "func/" ++ fname)))) =
      false ∧
    (BIDSValidator.init b).is_bids
        (String.mk (tl "/sub-" ++ (subl ++ '/' ::
          (tl "ses-" ++ (sesl ++ '/' :: (tl "func/" ++ fname)))))) = false := by
  constructor
  · -- the sessionless path
    have hps : parseSubjectDir
        (tl "/sub-" ++ (subl ++ '/' :: (tl "func/" ++ fname))) =
        some (tl "sub-" ++ subl, tl "func/" ++ fname) :=
      parseSubjectDir_pos hs ha _
    have hnil : subSesMod [[]]
        (tl "/sub-" ++ (subl ++ '/' :: (tl "func/" ++ fname))) = none := by
      unfold subSesMod
      simp only [hps]
      rfl
    have hanat : subSesMod [tl "anat/"]
        (tl "/sub-" ++ (subl ++ '/' :: (tl "func/" ++ fname))) = none := by
      unfold subSesMod
      simp only [hps]
      rfl
    have hdwi : subSesMod [tl "dwi/"]
        (tl "/sub-" ++ (subl ++ '/' :: (tl "func/" ++ fname))) = none := by
      unfold subSesMod
      simp only [hps]
      rfl
    have hfmap : subSesMod [tl "fmap/"]
        (tl "/sub-" ++ (subl ++ '/' :: (tl "func/" ++ fname))) = none := by
      unfold subSesMod
      simp only [hps]
      rfl
    have hbeh : subSesMod [tl "beh/"]
        (tl "/sub-" ++ (subl ++ '/' :: (tl "func/" ++ fname))) = none := by
      unfold subSesMod
      simp only [hps]
      rfl
    have hfuncsm : ∀ g1 g2 r, subSesMod [tl "func/"]
        (tl "/sub-" ++ (subl ++ '/' :: (tl "func/" ++ fname))) =
          some (g1, g2, r) → ∃ a, fname = a ++ r := by
      intro g1 g2 r h
      unfold subSesMod at h
      simp only [hps] at h
      simp only [show parseOptSesDir (tl "func/" ++ fname) =
        some (none, tl "func/" ++ fname) from rfl,
        show firstLit [tl "func/"] (tl "func/" ++ fname) = some fname
          from rfl] at h
      rcases hl : lit (tl "sub-" ++ subl) fname with _ | s2 <;> simp [hl] at h
      exact ⟨tl "sub-" ++ subl, by rw [lit_eq_some hl, h.2.2]⟩
    have hcontsm : ∀ g1 g2 r, subSesMod [tl "func/", tl "beh/"]
        (tl "/sub-" ++ (subl ++ '/' :: (tl "func/" ++ fname))) =
          some (g1, g2, r) → ∃ a, fname = a ++ r := by
      intro g1 g2 r h
      unfold subSesMod at h
      simp only [hps] at h
      simp only [show parseOptSesDir (tl "func/" ++ fname) =
        some (none, tl "func/" ++ fname) from rfl,
        show firstLit [tl "func/", tl "beh/"] (tl "func/" ++ fname) =
          some fname from rfl] at h
      rcases hl : lit (tl "sub-" ++ subl) fname with _ | s2 <;> simp [hl] at h
      exact ⟨tl "sub-" ++ subl, by rw [lit_eq_some hl, h.2.2]⟩
    have hses : (BIDSValidator.init b).is_session_level
        (String.mk (tl "/sub-" ++ (subl ++ '/' :: (tl "func/" ++ fname)))) =
          false := by
      show (BIDSValidator.conditional_match
          (scansRe (tl "/sub-" ++ (subl ++ '/' :: (tl "func/" ++ fname)))) ||
        BIDSValidator.conditional_match
          (funcSesRe (tl "/sub-" ++ (subl ++ '/' :: (tl "func/" ++ fname)))) ||
        BIDSValidator.conditional_match
          (anatSesRe (BIDSValidator.init b).anat_suffixes
            (tl "/sub-" ++ (subl ++ '/' :: (tl "func/" ++ fname)))) ||
        BIDSValidator.conditional_match
          (dwiSesRe (tl "/sub-" ++ (subl ++ '/' :: (tl "func/" ++ fname))))) =
          false
      have e1 : scansRe
          (tl "/sub-" ++ (subl ++ '/' :: (tl "func/" ++ fname))) = none := by
        unfold scansRe
        simp [hnil]
      have e2 : funcSesRe
          (tl "/sub-" ++ (subl ++ '/' :: (tl "func/" ++ fname))) = none := by
        unfold funcSesRe
        simp [hnil]
      have e3 : anatSesRe (BIDSValidator.init b).anat_suffixes
          (tl "/sub-" ++ (subl ++ '/' :: (tl "func/" ++ fname))) = none := by
        unfold anatSesRe
        simp [hnil]
      have e4 : dwiSesRe
          (tl "/sub-" ++ (subl ++ '/' :: (tl "func/" ++ fname))) = none := by
        unfold dwiSesRe
        simp [hnil]
      rw [e1, e2, e3, e4]
      rfl
    have hsubj : (BIDSValidator.init b).is_subject_level
        (String.mk (tl "/sub-" ++ (subl ++ '/' :: (tl "func/" ++ fname)))) =
          false := by
      show subjectLevelRe
          (tl "/sub-" ++ (subl ++ '/' :: (tl "func/" ++ fname))) = false
      unfold subjectLevelRe
      simp only [hps]
      rfl
    have hanatp : (BIDSValidator.init b).is_anat
        (String.mk (tl "/sub-" ++ (subl ++ '/' :: (tl "func/" ++ fname)))) =
          false := by
      show BIDSValidator.conditional_match
        (anatRe (BIDSValidator.init b).anat_suffixes
          (tl "/sub-" ++ (subl ++ '/' :: (tl "func/" ++ fname)))) = false
      have e : anatRe (BIDSValidator.init b).anat_suffixes
          (tl "/sub-" ++ (subl ++ '/' :: (tl "func/" ++ fname))) = none := by
        unfold anatRe
        simp [hanat]
      rw [e]
      rfl
    have hdwip : (BIDSValidator.init b).is_dwi
        (String.mk (tl "/sub-" ++ (subl ++ '/' :: (tl "func/" ++ fname)))) =
          false := by
      show BIDSValidator.conditional_match
        (dwiRe (tl "/sub-" ++ (subl ++ '/' :: (tl "func/" ++ fname)))) = false
      have e : dwiRe
          (tl "/sub-" ++ (subl ++ '/' :: (tl "func/" ++ fname))) = none := by
        unfold dwiRe
        simp [hdwi]
      rw [e]
      rfl
    have hfmapp : (BIDSValidator.init b).is_field_map
        (String.mk (tl "/sub-" ++ (subl ++ '/' :: (tl "func/" ++ fname)))) =
          false := by
      show BIDSValidator.conditional_match
        (fieldMapRe (tl "/sub-" ++ (subl ++ '/' :: (tl "func/" ++ fname)))) =
          false
      have e : fieldMapRe
          (tl "/sub-" ++ (subl ++ '/' :: (tl "func/" ++ fname))) = none := by
        unfold fieldMapRe
        simp [hfmap]
      rw [e]
      rfl
    have hbehp : (BIDSValidator.init b).is_behavioral
        (String.mk (tl "/sub-" ++ (subl ++ '/' :: (tl "func/" ++ fname)))) =
          false := by
      show BIDSValidator.conditional_match
        (behRe (tl "/sub-" ++ (subl ++ '/' :: (tl "func/" ++ fname)))) = false
      have e : behRe
          (tl "/sub-" ++ (subl ++ '/' :: (tl "func/" ++ fname))) = none := by
        unfold behRe
        simp [hbeh]
      rw [e]
      rfl
    have hfuncp : (BIDSValidator.init b).is_func
        (String.mk (tl "/sub-" ++ (subl ++ '/' :: (tl "func/" ++ fname)))) =
          false := by
      show BIDSValidator.conditional_match
        (funcRe (tl "/sub-" ++ (subl ++ '/' :: (tl "func/" ++ fname)))) = false
      rcases hfr : funcRe
          (tl "/sub-" ++ (subl ++ '/' :: (tl "func/" ++ fname))) with _ | g
      · rfl
      · exfalso
        obtain ⟨g1, g2, r, hsm2, htok⟩ := funcRe_some_task hfr
        obtain ⟨a, hfa⟩ := hfuncsm g1 g2 r hsm2
        rw [hfa, hasTaskTok_append_right htok] at hnt
        cases hnt
    have hcontp : (BIDSValidator.init b).is_cont
        (String.mk (tl "/sub-" ++ (subl ++ '/' :: (tl "func/" ++ fname)))) =
          false := by
      show BIDSValidator.conditional_match
        (contRe (tl "/sub-" ++ (subl ++ '/' :: (tl "func/" ++ fname)))) = false
      rcases hfr : contRe
          (tl "/sub-" ++ (subl ++ '/' :: (tl "func/" ++ fname))) with _ | g
      · rfl
      · exfalso
        obtain ⟨g1, g2, r, hsm2, htok⟩ := contRe_some_task hfr
        obtain ⟨a, hfa⟩ := hcontsm g1 g2 r hsm2
        rw [hfa, hasTaskTok_append_right htok] at hnt
        cases hnt
    have hassoc : (BIDSValidator.init b).is_associated_data
        (String.mk (tl "/sub-" ++ (subl ++ '/' :: (tl "func/" ++ fname)))) =
          false := by
      rcases b with _ | _ <;> rfl
    unfold BIDSValidator.is_bids
    rw [hassoc, hses, hsubj, hanatp, hdwip, hfuncp, hbehp, hcontp, hfmapp]
    rw [show (BIDSValidator.init b).is_top_level
      (String.mk (tl "/sub-" ++ (subl ++ '/' :: (tl "func/" ++ fname)))) =
        false from rfl]
    rw [show (BIDSValidator.init b).is_phenotypic
      (String.mk (tl "/sub-" ++ (subl ++ '/' :: (tl "func/" ++ fname)))) =
        false from rfl]
    rfl
  · -- the path with a session directory
    have hps : parseSubjectDir (tl "/sub-" ++ (subl ++ '/' ::
        (tl "ses-" ++ (sesl ++ '/' :: (tl "func/" ++ fname))))) =
        some (tl "sub-" ++ subl,
          tl "ses-" ++ (sesl ++ '/' :: (tl "func/" ++ fname))) :=
      parseSubjectDir_pos hs ha _
    have hpses : parseOptSesDir
        (tl "ses-" ++ (sesl ++ '/' :: (tl "func/" ++ fname))) =
        some (some (tl "ses-" ++ sesl), tl "func/" ++ fname) :=
      parseOptSesDir_pos hs2 ha2 _
    have hnil : subSesMod [[]] (tl "/sub-" ++ (subl ++ '/' ::
        (tl "ses-" ++ (sesl ++ '/' :: (tl "func/" ++ fname))))) = none := by
      unfold subSesMod
      simp only [hps, hpses]
      rfl
    have hanat : subSesMod [tl "anat/"] (tl "/sub-" ++ (subl ++ '/' ::
        (tl "ses-" ++ (sesl ++ '/' :: (tl "func/" ++ fname))))) = none := by
      unfold subSesMod
      simp only [hps, hpses]
      rfl
    have hdwi : subSesMod [tl "dwi/"] (tl "/sub-" ++ (subl ++ '/' ::
        (tl "ses-" ++ (sesl ++ '/' :: (tl "func/" ++ fname))))) = none := by
      unfold subSesMod
      simp only [hps, hpses]
      rfl
    have hfmap : subSesMod [tl "fmap/"] (tl "/sub-" ++ (subl ++ '/' ::
        (tl "ses-" ++ (sesl ++ '/' :: (tl "func/" ++ fname))))) = none := by
      unfold subSesMod
      simp only [hps, hpses]
      rfl
    have hbeh : subSesMod [tl "beh/"] (tl "/sub-" ++ (subl ++ '/' ::
        (tl "ses-" ++ (sesl ++ '/' :: (tl "func/" ++ fname))))) = none := by
      unfold subSesMod
      simp only [hps, hpses]
      rfl
    have hfuncsm : ∀ g1 g2 r, subSesMod [tl "func/"]
        (tl "/sub-" ++ (subl ++ '/' ::
          (tl "ses-" ++ (sesl ++ '/' :: (tl "func/" ++ fname))))) =
          some (g1, g2, r) → ∃ a, fname = a ++ r := by
      intro g1 g2 r h
      unfold subSesMod at h
      simp only [hps, hpses] at h
      simp only [show firstLit [tl "func/"] (tl "func/" ++ fname) = some fname
        from rfl] at h
      rcases hl : lit (tl "sub-" ++ subl) fname with _ | s2 <;> simp [hl] at h
      exact ⟨tl "sub-" ++ subl, by rw [lit_eq_some hl, h.2.2]⟩
    have hcontsm : ∀ g1 g2 r, subSesMod [tl "func/", tl "beh/"]
        (tl "/sub-" ++ (subl ++ '/' ::
          (tl "ses-" ++ (sesl ++ '/' :: (tl "func/" ++ fname))))) =
          some (g1, g2, r) → ∃ a, fname = a ++ r := by
      intro g1 g2 r h
      unfold subSesMod at h
      simp only [hps, hpses] at h
      simp only [show firstLit [tl "func/", tl "beh/"] (tl "func/" ++ fname) =
        some fname from rfl] at h
      rcases hl : lit (tl "sub-" ++ subl) fname with _ | s2 <;> simp [hl] at h
      exact ⟨tl "sub-" ++ subl, by rw [lit_eq_some hl, h.2.2]⟩
    have hses : (BIDSValidator.init b).is_session_level
        (String.mk (tl "/sub-" ++ (subl ++ '/' ::
          (tl "ses-" ++ (sesl ++ '/' :: (tl "func/" ++ fname)))))) = false := by
      show (BIDSValidator.conditional_match
          (scansRe (tl "/sub-" ++ (subl ++ '/' ::
            (tl "ses-" ++ (sesl ++ '/' :: (tl "func/" ++ fname)))))) ||
        BIDSValidator.conditional_match
          (funcSesRe (tl "/sub-" ++ (subl ++ '/' ::
            (tl "ses-" ++ (sesl ++ '/' :: (tl "func/" ++ fname)))))) ||
        BIDSValidator.conditional_match
          (anatSesRe (BIDSValidator.init b).anat_suffixes
            (tl "/sub-" ++ (subl ++ '/' ::
              (tl "ses-" ++ (sesl ++ '/' :: (tl "func/" ++ fname)))))) ||
        BIDSValidator.conditional_match
          (dwiSesRe (tl "/sub-" ++ (subl ++ '/' ::
            (tl "ses-" ++ (sesl ++ '/' :: (tl "func/" ++ fname))))))) = false
      have e1 : scansRe (tl "/sub-" ++ (subl ++ '/' ::
          (tl "ses-" ++ (sesl ++ '/' :: (tl "func/" ++ fname))))) = none := by
        unfold scansRe
        simp [hnil]
      have e2 : funcSesRe (tl "/sub-" ++ (subl ++ '/' ::
          (tl "ses-" ++ (sesl ++ '/' :: (tl "func/" ++ fname))))) = none := by
        unfold funcSesRe
        simp [hnil]
      have e3 : anatSesRe (BIDSValidator.init b).anat_suffixes
          (tl "/sub-" ++ (subl ++ '/' ::
            (tl "ses-" ++ (sesl ++ '/' :: (tl "func/" ++ fname))))) = none := by
        unfold anatSesRe
        simp [hnil]
      have e4 : dwiSesRe (tl "/sub-" ++ (subl ++ '/' ::
          (tl "ses-" ++ (sesl ++ '/' :: (tl "func/" ++ fname))))) = none := by
        unfold dwiSesRe
        simp [hnil]
      rw [e1, e2, e3, e4]
      rfl
    have hsubj : (BIDSValidator.init b).is_subject_level
        (String.mk (tl "/sub-" ++ (subl ++ '/' ::
          (tl "ses-" ++ (sesl ++ '/' :: (tl "func/" ++ fname)))))) = false := by
      show subjectLevelRe (tl "/sub-" ++ (subl ++ '/' ::
        (tl "ses-" ++ (sesl ++ '/' :: (tl "func/" ++ fname))))) = false
      unfold subjectLevelRe
      simp only [hps]
      rfl
    have hanatp : (BIDSValidator.init b).is_anat
        (String.mk (tl "/sub-" ++ (subl ++ '/' ::
          (tl "ses-" ++ (sesl ++ '/' :: (tl "func/" ++ fname)))))) = false := by
      show BIDSValidator.conditional_match
        (anatRe (BIDSValidator.init b).anat_suffixes
          (tl "/sub-" ++ (subl ++ '/' ::
            (tl "ses-" ++ (sesl ++ '/' :: (tl "func/" ++ fname)))))) = false
      have e : anatRe (BIDSValidator.init b).anat_suffixes
          (tl "/sub-" ++ (subl ++ '/' ::
            (tl "ses-" ++ (sesl ++ '/' :: (tl "func/" ++ fname))))) = none := by
        unfold anatRe
        simp [hanat]
      rw [e]
      rfl
    have hdwip : (BIDSValidator.init b).is_dwi
        (String.mk (tl "/sub-" ++ (subl ++ '/' ::
          (tl "ses-" ++ (sesl ++ '/' :: (tl "func/" ++ fname)))))) = false := by
      show BIDSValidator.conditional_match
        (dwiRe (tl "/sub-" ++ (subl ++ '/' ::
          (tl "ses-" ++ (sesl ++ '/' :: (tl "func/" ++ fname)))))) = false
      have e : dwiRe (tl "/sub-" ++ (subl ++ '/' ::
          (tl "ses-" ++ (sesl ++ '/' :: (tl "func/" ++ fname))))) = none := by
        unfold dwiRe
        simp [hdwi]
      rw [e]
      rfl
    have hfmapp : (BIDSValidator.init b).is_field_map
        (String.mk (tl "/sub-" ++ (subl ++ '/' ::
          (tl "ses-" ++ (sesl ++ '/' :: (tl "func/" ++ fname)))))) = false := by
      show BIDSValidator.conditional_match
        (fieldMapRe (tl "/sub-" ++ (subl ++ '/' ::
          (tl "ses-" ++ (sesl ++ '/' :: (tl "func/" ++ fname)))))) = false
      have e : fieldMapRe (tl "/sub-" ++ (subl ++ '/' ::
          (tl "ses-" ++ (sesl ++ '/' :: (tl "func/" ++ fname))))) = none := by
        unfold fieldMapRe
        simp [hfmap]
      rw [e]
      rfl
    have hbehp : (BIDSValidator.init b).is_behavioral
        (String.mk (tl "/sub-" ++ (subl ++ '/' ::
          (tl "ses-" ++ (sesl ++ '/' :: (tl "func/" ++ fname)))))) = false := by
      show BIDSValidator.conditional_match
        (behRe (tl "/sub-" ++ (subl ++ '/' ::
          (tl "ses-" ++ (sesl ++ '/' :: (tl "func/" ++ fname)))))) = false
      have e : behRe (tl "/sub-" ++ (subl ++ '/' ::
          (tl "ses-" ++ (sesl ++ '/' :: (tl "func/" ++ fname))))) = none := by
        unfold behRe
        simp [hbeh]
      rw [e]
      rfl
    have hfuncp : (BIDSValidator.init b).is_func
        (String.mk (tl "/sub-" ++ (subl ++ '/' ::
          (tl "ses-" ++ (sesl ++ '/' :: (tl "func/" ++ fname)))))) = false := by
      show BIDSValidator.conditional_match
        (funcRe (tl "/sub-" ++ (subl ++ '/' ::
          (tl "ses-" ++ (sesl ++ '/' :: (tl "func/" ++ fname)))))) = false
      rcases hfr : funcRe (tl "/sub-" ++ (subl ++ '/' ::
          (tl "ses-" ++ (sesl ++ '/' :: (tl "func/" ++ fname))))) with _ | g
      · rfl
      · exfalso
        obtain ⟨g1, g2, r, hsm2, htok⟩ := funcRe_some_task hfr
        obtain ⟨a, hfa⟩ := hfuncsm g1 g2 r hsm2
        rw [hfa, hasTaskTok_append_right htok] at hnt
        cases hnt
    have hcontp : (BIDSValidator.init b).is_cont
        (String.mk (tl "/sub-" ++ (subl ++ '/' ::
          (tl "ses-" ++ (sesl ++ '/' :: (tl "func/" ++ fname)))))) = false := by
      show BIDSValidator.conditional_match
        (contRe (tl "/sub-" ++ (subl ++ '/' ::
          (tl "ses-" ++ (sesl ++ '/' :: (tl "func/" ++ fname)))))) = false
      rcases hfr : contRe (tl "/sub-" ++ (subl ++ '/' ::
          (tl "ses-" ++ (sesl ++ '/' :: (tl "func/" ++ fname))))) with _ | g
      · rfl
      · exfalso
        obtain ⟨g1, g2, r, hsm2, htok⟩ := contRe_some_task hfr
        obtain ⟨a, hfa⟩ := hcontsm g1 g2 r hsm2
        rw [hfa, hasTaskTok_append_right htok] at hnt
        cases hnt
    have hassoc : (BIDSValidator.init b).is_associated_data
        (String.mk (tl "/sub-" ++ (subl ++ '/' ::
          (tl "ses-" ++ (sesl ++ '/' :: (tl "func/" ++ fname)))))) = false := by
      rcases b with _ | _ <;> rfl
    unfold BIDSValidator.is_bids
    rw [hassoc, hses, hsubj, hanatp, hdwip, hfuncp, hbehp, hcontp, hfmapp]
    rw [show (BIDSValidator.init b).is_top_level
      (String.mk (tl "/sub-" ++ (subl ++ '/' ::
        (tl "ses-" ++ (sesl ++ '/' :: (tl "func/" ++ fname)))))) = false
      from rfl]
    rw [show (BIDSValidator.init b).is_phenotypic
      (String.mk (tl "/sub-" ++ (subl ++ '/' ::
        (tl "ses-" ++ (sesl ++ '/' :: (tl "func/" ++ fname)))))) = false
      from rfl]
    rfl

/-- Witness for C7 at a concrete subject, session and task-free filename. -/
theorem c7_func_without_task_rejected_witness :
    (BIDSValidator.init true).is_bids
        (String.mk (tl "/sub-" ++ (tl "01" ++ '/' ::
          (tl "func/" ++ tl "sub-01_bold.nii.gz")))) = false ∧
    (BIDSValidator.init true).is_bids
        (String.mk (tl "/sub-" ++ (tl "01" ++ '/' ::
          (tl "ses-" ++ (tl "a" ++ '/' ::
            (tl "func/" ++ tl "sub-01_bold.nii.gz")))))) = false :=
  c7_func_without_task_rejected true (tl "01") (tl "a")
    (tl "sub-01_bold.nii.gz") (by decide) (by decide) (by decide) (by decide)
    (by decide) (by decide)
